import Mathlib

/-!
# vision3d-gateway: pixel-to-3D query server

A shallow embedding of `src/modules/vision3d-gateway/src/main.cpp` (class `Gateway`).

Conventions of the embedding

* C++ `double` is an arbitrary linearly ordered field `K` with a floor function
  (exact arithmetic; `ℚ` for evaluation, `ℝ` for the trigonometric statements).
  `tan` and the constant `M_PI` are parameters `tan : K → K`, `pi : K`.
* A C++ `int` value is an `Int`; the additions of the `Rect` scan (`tlx+w`, `tly+h`,
  `u+=step`, `v+=step`) wrap to 32 bits in two's complement (`wrapInt`), as the
  compiled code does.
* A YARP `Bottle` is a list of `Value`s; `get` past the end answers the null value.
* The `Rect` scan may fail to terminate, so its loops take a fuel argument and answer
  `none` when the fuel is exhausted; every other path is a total function.
* `respondTraced` also lists, in program order, the accesses of `respond` to the lock
  `depthMutex` made within the given fuel.
-/

namespace Vision3dGateway

/-! ## YARP values, bottles, images, matrices -/

/-- A YARP `Value` as stored in a `Bottle`. -/
inductive Value (K : Type) where
  | null
  | int (i : Int)
  | dbl (x : K)
  | str (s : String)
  | vocab (code : Int)
  deriving DecidableEq

/-- A YARP `Bottle`: a sequence of values. -/
abbrev Bottle (K : Type) := List (Value K)

/-- A depth frame `ImageOf<PixelFloat>`: dimensions and the sample stored at `(x,y)`. -/
structure ImageOf (K : Type) where
  width : Nat
  height : Nat
  pixel : Int → Int → K

/-- A 4x4 `yarp::sig::Matrix`. -/
abbrev Matrix4 (K : Type) := Fin 4 → Fin 4 → K

/-- A YARP `Property` as seen through `find(key).asList()`: the list stored under a key,
if there is one. -/
abbrev Property (K : Type) := String → Option (Bottle K)

/-- The members of `class Gateway` that the methods read or write. -/
structure Gateway (K : Type) where
  camera_configured : Bool
  fov_h : K
  fov_v : K
  depth : ImageOf K
  Hcam : Matrix4 K

/-- What the camera RPC port does when queried: no output connection
(`getOutputCount()==0`), a failed `write`, or a reply bottle. -/
inductive CamPort (K : Type) where
  | disconnected
  | writeFails
  | replies (rep : Bottle K)

/-- The part of the `ResourceFinder` that `configure` consults: the list found under
`camera` / `fov`, if the group, the key and a list value are all present. -/
structure ResourceFinder (K : Type) where
  cameraFov : Option (Bottle K)

/-- Accesses of `updateModule` to the lock and to the state shared with `respond`. -/
inductive SharedAccess where
  | lock
  | unlock
  | writeDepth
  | writeHcam
  deriving DecidableEq, Repr

/-- `Vocab::encode`: the first four characters packed little-endian into an integer. -/
def Vocab.encode (s : String) : Int :=
  let c : Nat → Int := fun i => ((s.toList.getD i (Char.ofNat 0)).toNat : Int)
  c 0 + c 1 * 256 + c 2 * 65536 + c 3 * 16777216

/-- The least value of a 32-bit `int`. -/
def INT_MIN : Int := -2147483648

/-- The greatest value of a 32-bit `int`. -/
def INT_MAX : Int := 2147483647

/-- The `int` that a 32-bit two's-complement addition leaves when its mathematical
result is `x`. -/
def wrapInt (x : Int) : Int := (x + 2147483648) % 4294967296 - 2147483648

/-- The integer is representable as a 32-bit `int`. -/
def isInt (x : Int) : Prop := INT_MIN ≤ x ∧ x ≤ INT_MAX

section Embedding

variable {K : Type} [LinearOrderedField K] [FloorRing K]

/-- `Bottle::size`. -/
def Bottle.size (b : Bottle K) : Nat := b.length

/-- `Bottle::get`: the value at an index, the null value outside the bottle. -/
def Bottle.get (b : Bottle K) (i : Nat) : Value K := b.getD i Value.null

/-- `Value::asString`: the text of a string value, empty otherwise. -/
def Value.asString : Value K → String
  | Value.str s => s
  | _ => ""

/-- `Value::asInt`: the integer stored, a numeric value converted (a double is
truncated towards zero), `0` otherwise. -/
def Value.asInt : Value K → Int
  | Value.int i => i
  | Value.dbl x => if 0 ≤ x then ⌊x⌋ else ⌈x⌉
  | Value.vocab c => c
  | _ => 0

/-- `Value::asDouble`: the number stored, converted to a double, `0` otherwise. -/
def Value.asDouble : Value K → K
  | Value.int i => (i : K)
  | Value.dbl x => x
  | Value.vocab c => (c : K)
  | _ => 0

/-- `eye(4,4)`. -/
def eye4 : Matrix4 K := fun i j => if i = j then 1 else 0

/-- Assignment `H(i,j)=x` to one matrix entry. -/
def Matrix4.set (H : Matrix4 K) (i j : Fin 4) (x : K) : Matrix4 K :=
  fun r c => if r = i ∧ c = j then x else H r c

/-- `Vector::push_back` on a 3-vector. -/
def push_back (p : Fin 3 → K) (x : K) : Fin 4 → K := ![p 0, p 1, p 2, x]

/-- Matrix-vector product `H*p` of `yarp::math`. -/
def mulVec (H : Matrix4 K) (p : Fin 4 → K) : Fin 4 → K :=
  fun r => H r 0 * p 0 + H r 1 * p 1 + H r 2 * p 2 + H r 3 * p 3

/-! ## `Gateway::getCameraOptions`, `Gateway::getPoint3D` -/

/-- `Gateway::getCameraOptions`: the returned flag and the gateway afterwards. -/
def getCameraOptions (g : Gateway K) (cam : CamPort K) : Bool × Gateway K :=
  match cam with
  | CamPort.disconnected => (false, g)
  | CamPort.writeFails => (false, g)
  | CamPort.replies rep =>
    if rep.size ≥ 5 then
      (true, { g with fov_h := (rep.get 3).asDouble, fov_v := (rep.get 4).asDouble })
    else (false, g)

/-- `Gateway::getPoint3D`, together with the list of depth-frame indices it reads
(`depth(u,v)` is the only read). -/
def getPoint3DTraced (tan : K → K) (pi : K) (g : Gateway K) (u v : Int) :
    (Fin 3 → K) × List (Int × Int) :=
  if u ≥ 0 ∧ u < (g.depth.width : Int) ∧ v ≥ 0 ∧ v < (g.depth.height : Int)
      ∧ g.fov_h > 0 ∧ g.fov_v > 0 then
    let f_h : K := (g.depth.width : K) / (2 * tan (g.fov_h * (pi / 180) / 2))
    let f_v : K := (g.depth.height : K) / (2 * tan (g.fov_v * (pi / 180) / 2))
    let d : K := g.depth.pixel u v
    if d > 0 ∧ f_h > 0 ∧ f_v > 0 then
      let x : K := (u : K) - 0.5 * (((g.depth.width : Int) - 1 : Int) : K)
      let y : K := (v : K) - 0.5 * (((g.depth.height : Int) - 1 : Int) : K)
      (![d * (x / f_h), d * (y / f_v), d], [(u, v)])
    else (![0, 0, 0], [(u, v)])
  else (![0, 0, 0], [])

/-- `Gateway::getPoint3D`: the point returned. -/
def getPoint3D (tan : K → K) (pi : K) (g : Gateway K) (u v : Int) : Fin 3 → K :=
  (getPoint3DTraced tan pi g u v).1

/-! ## `Gateway::configure`, `Gateway::updateModule` -/

/-- `Gateway::configure`: the state it sets up (the depth frame is still empty). -/
def configure (rf : ResourceFinder K) : Gateway K :=
  let g0 : Gateway K :=
    { camera_configured := false, Hcam := eye4, fov_h := 0, fov_v := 0,
      depth := { width := 0, height := 0, pixel := fun _ _ => 0 } }
  match rf.cameraFov with
  | some fov =>
    if fov.size ≥ 2 then
      { g0 with camera_configured := true,
                fov_h := (fov.get 0).asDouble, fov_v := (fov.get 1).asDouble }
    else g0
  | none => g0

/-- `Gateway::updateModule` for one tick: the returned flag, the gateway afterwards and,
in program order, the accesses to the lock and to the shared depth frame and pose.
`depthRead` is the result of the blocking `depthPort.read(true)`, `gazeRead` of
`gazePort.read(false)`; `axis2dcm` is the library function of `yarp::math`. -/
def updateModule (axis2dcm : (Fin 4 → K) → Matrix4 K) (g : Gateway K) (cam : CamPort K)
    (depthRead : Option (ImageOf K)) (gazeRead : Option (Property K)) :
    Bool × Gateway K × List SharedAccess :=
  let g1 : Gateway K :=
    if !g.camera_configured then
      let r := getCameraOptions g cam
      { r.2 with camera_configured := r.1 }
    else g
  let s2 : Gateway K × List SharedAccess :=
    match depthRead with
    | some img =>
      ({ g1 with depth := img },
        [SharedAccess.lock, SharedAccess.writeDepth, SharedAccess.unlock])
    | none => (g1, [])
  let s3 : Gateway K × List SharedAccess :=
    match gazeRead with
    | some ptr =>
      match ptr "depth" with
      | some pose =>
        if pose.size ≥ 7 then
          let orientation : Fin 4 → K :=
            ![(pose.get 3).asDouble, (pose.get 4).asDouble,
              (pose.get 5).asDouble, (pose.get 6).asDouble]
          let H0 := axis2dcm orientation
          let H1 := H0.set 0 3 (pose.get 0).asDouble
          let H2 := H1.set 1 3 (pose.get 1).asDouble
          let H3 := H2.set 2 3 (pose.get 2).asDouble
          ({ s2.1 with Hcam := H3 },
            [SharedAccess.writeHcam, SharedAccess.writeHcam,
             SharedAccess.writeHcam, SharedAccess.writeHcam])
        else (s2.1, [])
      | none => (s2.1, [])
    | none => (s2.1, [])
  (true, s3.1, s2.2 ++ s3.2)

/-! ## `Gateway::respond` -/

/-- The body shared by the `Rect` and `Points` loops: unproject the pixel, append the
homogeneous `1`, multiply by `Hcam`, and emit the first three components as doubles. -/
def pixelReply (tan : K → K) (pi : K) (g : Gateway K) (u v : Int) : Bottle K :=
  let p := getPoint3D tan pi g u v
  let p := push_back p 1
  let p := mulVec g.Hcam p
  [Value.dbl (p 0), Value.dbl (p 1), Value.dbl (p 2)]

/-- The inner loop `for (int v=tly; v<tly+h; v+=step)` of the `Rect` scan, entered
with loop variable `v` and the reply built so far; one unit of fuel per test. -/
def rectInner (tan : K → K) (pi : K) (g : Gateway K) (u tly h step : Int) :
    Nat → Int → Bottle K → Option (Bottle K)
  | 0, _, _ => none
  | fuel + 1, v, reply =>
    if v < wrapInt (tly + h) then
      rectInner tan pi g u tly h step fuel (wrapInt (v + step))
        (reply ++ pixelReply tan pi g u v)
    else some reply

/-- The outer loop `for (int u=tlx; u<tlx+w; u+=step)` of the `Rect` scan. -/
def rectOuter (tan : K → K) (pi : K) (g : Gateway K) (tlx tly w h step : Int) :
    Nat → Int → Bottle K → Option (Bottle K)
  | 0, _, _ => none
  | fuel + 1, u, reply =>
    if u < wrapInt (tlx + w) then
      match rectInner tan pi g u tly h step fuel tly reply with
      | none => none
      | some reply1 => rectOuter tan pi g tlx tly w h step fuel (wrapInt (u + step)) reply1
    else some reply

/-- The loop `for (int cnt=1; cnt<command.size()-1; cnt+=2)` of the `Points` scan. -/
def pointsLoop (tan : K → K) (pi : K) (g : Gateway K) (command : Bottle K)
    (cnt : Nat) (reply : Bottle K) : Bottle K :=
  if cnt < command.size - 1 then
    let u := (command.get cnt).asInt
    let v := (command.get (cnt + 1)).asInt
    pointsLoop tan pi g command (cnt + 2) (reply ++ pixelReply tan pi g u v)
  else reply
termination_by command.size - cnt
decreasing_by
  simp only [Bottle.size] at *
  omega

/-- The reply to `help`. -/
def helpReply : Bottle K :=
  [Value.vocab (Vocab.encode "many"),
   Value.str "Available commands are:",
   Value.str "- [Rect tlx tly w h step]: Given the pixels in the rectangle defined by \x7b(tlx,tly) (tlx+w,tly+h)\x7d (parsed by columns), the response contains the corresponding 3D points in the ROOT frame. The optional parameter step defines the sampling quantum; by default step=1.",
   Value.str "- [Points u_1 v_1 ... u_n v_n]: Given a list of n pixels, the response contains the corresponding 3D points in the ROOT frame.",
   Value.str "For more details on the commands, check the module's documentation"]

/-- `Gateway::respond`: the returned flag and the reply, `none` when the given fuel does
not suffice for the `Rect` scan to finish; and the accesses to the lock made so far
(`LockGuard lg(depthMutex)` locks where it is declared and unlocks when its scope, the
branch of the scan, is left). The reply is cleared first, so its previous content plays
no role. -/
def respondTraced (tan : K → K) (pi : K) (g : Gateway K) (fuel : Nat) (command : Bottle K) :
    Option (Bool × Bottle K) × List SharedAccess :=
  if command.size = 0 then (some (false, []), [])
  else
    let cmd := (command.get 0).asString
    if cmd = "quit" then (some (false, []), [])
    else if cmd = "help" then (some (true, helpReply), [])
    else if cmd = "Rect" ∧ command.size ≥ 5 then
      let tlx := (command.get 1).asInt
      let tly := (command.get 2).asInt
      let w := (command.get 3).asInt
      let h := (command.get 4).asInt
      let step := if command.size ≥ 6 then (command.get 5).asInt else 1
      match rectOuter tan pi g tlx tly w h step fuel tlx [] with
      | none => (none, [SharedAccess.lock])
      | some reply => (some (true, reply), [SharedAccess.lock, SharedAccess.unlock])
    else if cmd = "Points" ∧ command.size ≥ 3 then
      (some (true, pointsLoop tan pi g command 1 []),
        [SharedAccess.lock, SharedAccess.unlock])
    else (some (true, [Value.str "NACK"]), [])

/-- `Gateway::respond`: the returned flag and the reply, `none` when the given fuel does
not suffice for the `Rect` scan to finish. -/
def respond (tan : K → K) (pi : K) (g : Gateway K) (fuel : Nat) (command : Bottle K) :
    Option (Bool × Bottle K) :=
  (respondTraced tan pi g fuel command).1

/-! ## The gateway as a state machine -/

/-- What can happen to a configured gateway: an `updateModule` tick with the inputs it
meets, or an RPC request handled by `respond`. -/
inductive Event (K : Type) where
  | tick (cam : CamPort K) (depthRead : Option (ImageOf K)) (gazeRead : Option (Property K))
  | rpc (fuel : Nat) (command : Bottle K)

/-- The gateway after one event; `respond` writes no member. -/
def transition (axis2dcm : (Fin 4 → K) → Matrix4 K) (g : Gateway K) : Event K → Gateway K
  | Event.tick cam depthRead gazeRead => (updateModule axis2dcm g cam depthRead gazeRead).2.1
  | Event.rpc _ _ => g

/-- The gateway after a sequence of events. -/
def run (axis2dcm : (Fin 4 → K) → Matrix4 K) (g : Gateway K) (evs : List (Event K)) :
    Gateway K :=
  evs.foldl (transition axis2dcm) g

/-- Whether every write in a sequence of accesses happens while the lock is held;
`held` says whether the lock is held at the start. -/
def writesUnderLock : Bool → List SharedAccess → Bool
  | _, [] => true
  | _, SharedAccess.lock :: rest => writesUnderLock true rest
  | _, SharedAccess.unlock :: rest => writesUnderLock false rest
  | held, SharedAccess.writeDepth :: rest => held && writesUnderLock held rest
  | held, SharedAccess.writeHcam :: rest => held && writesUnderLock held rest

set_option linter.unusedSectionVars false

/-! ## Requests and expected replies, as the specification words them -/

/-- The request `Rect tlx tly w h [step]` with integer arguments. -/
def rectCommand (tlx tly w h : Int) (step : Option Int) : Bottle K :=
  [Value.str "Rect", Value.int tlx, Value.int tly, Value.int w, Value.int h]
    ++ (match step with
        | none => []
        | some s => [Value.int s])

/-- The request `Points c1 ... cn` with integer coordinates. -/
def pointsCommand (cs : List Int) : Bottle K :=
  Value.str "Points" :: cs.map Value.int

/-- Number of values `x, x+step, x+2*step, ...` below `x+len`: `ceil(len/step)`, and
none when `len ≤ 0`. -/
def rectCount (len step : Int) : Nat := Int.toNat ⌈(len : ℚ) / (step : ℚ)⌉

/-- The three doubles the specification describes for pixel `(u,v)`: the first three
components of the matrix-vector product `Hcam * (getPoint3D(u,v), 1)`. -/
def specPoint (tan : K → K) (pi : K) (g : Gateway K) (u v : Int) : Bottle K :=
  [Value.dbl (Matrix.mulVec (Matrix.of g.Hcam)
      ![getPoint3D tan pi g u v 0, getPoint3D tan pi g u v 1, getPoint3D tan pi g u v 2, 1] 0),
   Value.dbl (Matrix.mulVec (Matrix.of g.Hcam)
      ![getPoint3D tan pi g u v 0, getPoint3D tan pi g u v 1, getPoint3D tan pi g u v 2, 1] 1),
   Value.dbl (Matrix.mulVec (Matrix.of g.Hcam)
      ![getPoint3D tan pi g u v 0, getPoint3D tan pi g u v 1, getPoint3D tan pi g u v 2, 1] 2)]

/-- The reply the specification describes for `Rect`: columns `u = tlx, tlx+step, ...`
outermost, rows `v = tly, tly+step, ...` innermost, the point of each pixel. -/
def rectSpec (tan : K → K) (pi : K) (g : Gateway K) (tlx tly w h step : Int) : Bottle K :=
  (List.range (rectCount w step)).flatMap fun i =>
    (List.range (rectCount h step)).flatMap fun j =>
      specPoint tan pi g (tlx + (i : Int) * step) (tly + (j : Int) * step)

/-- One loop of the `Rect` scan stays within 32-bit `int`: its start `base`, its bound
`base + len` and the value `base + ceil(len/step)*step` with which the loop variable
leaves the loop. -/
def scanFits (base len step : Int) : Prop :=
  isInt base ∧ isInt (base + len) ∧ isInt (base + (rectCount len step : Int) * step)

/-- No addition of the `Rect` scan overflows: the outer loop fits and, when it is
entered at all, so does the inner loop. -/
def rectFits (tlx tly w h step : Int) : Prop :=
  scanFits tlx w step ∧ (0 < w → scanFits tly h step)

/-- The reply the specification describes for `Points`: one point per consecutive pair
of coordinates, an unpaired last coordinate dropped. -/
def pointsSpec (tan : K → K) (pi : K) (g : Gateway K) (cs : List Int) : Bottle K :=
  (List.range (cs.length / 2)).flatMap fun k =>
    specPoint tan pi g (cs.getD (2 * k) 0) (cs.getD (2 * k + 1) 0)

/-! ## Concrete inputs used to exercise the statements -/

/-- A stand-in for `tan` over the rationals: the value at 45 degrees everywhere. -/
def exampleTan : ℚ → ℚ := fun _ => 1

/-- A rational approximation of `M_PI`. -/
def examplePi : ℚ := 355 / 113

/-- A 4x2 depth frame whose sample at `(x,y)` is `x + 10*y + 1`. -/
def exampleDepth : ImageOf ℚ :=
  { width := 4
    height := 2
    pixel := fun x y => ((x + 10 * y + 1 : Int) : ℚ) }

/-- A gateway with resolved intrinsics (90 degrees both ways), the example frame and a
camera displaced by `(5, 0, 0)` without rotation. -/
def exampleGateway : Gateway ℚ :=
  { camera_configured := true
    fov_h := 90
    fov_v := 90
    depth := exampleDepth
    Hcam := Matrix4.set eye4 0 3 5 }

/-- An 8x8 depth frame whose sample at `(x,y)` is `x + 10*y + 1`. -/
def exampleDepth8 : ImageOf ℚ :=
  { width := 8
    height := 8
    pixel := fun x y => ((x + 10 * y + 1 : Int) : ℚ) }

/-- A gateway with resolved intrinsics (90 degrees both ways), the 8x8 frame and a
camera turned a quarter turn about the third axis and displaced by `(5, 0, 0)`. -/
def exampleGateway8 : Gateway ℚ :=
  { camera_configured := true
    fov_h := 90
    fov_v := 90
    depth := exampleDepth8
    Hcam := fun i j =>
      (![![(0 : ℚ), -1, 0, 5], ![(1 : ℚ), 0, 0, 0], ![(0 : ℚ), 0, 1, 0],
         ![(0 : ℚ), 0, 0, 1]] : Fin 4 → Fin 4 → ℚ) i j }

/-- A pixel for which the specification calls the unprojection degenerate: outside the
depth frame, with a non-positive depth sample, or asked for while `fov_h ≤ 0` or
`fov_v ≤ 0`. -/
def degeneratePixel (g : Gateway K) (u v : Int) : Prop :=
  ¬ (0 ≤ u ∧ u < (g.depth.width : Int) ∧ 0 ≤ v ∧ v < (g.depth.height : Int))
    ∨ g.depth.pixel u v ≤ 0 ∨ g.fov_h ≤ 0 ∨ g.fov_v ≤ 0

instance (g : Gateway K) (u v : Int) : Decidable (degeneratePixel g u v) := by
  unfold degeneratePixel
  infer_instance

/-- The translation column of `Hcam` as it appears in a reply: the first three
components of `Hcam * (0,0,0,1)`. -/
def cameraOrigin (g : Gateway K) : Bottle K :=
  [Value.dbl (g.Hcam 0 3), Value.dbl (g.Hcam 1 3), Value.dbl (g.Hcam 2 3)]

/-- A gateway with the given intrinsics, a 1x1 depth frame holding the sample `1` and
the identity pose. -/
def unitGateway (fov_h fov_v : K) : Gateway K :=
  { camera_configured := true
    fov_h := fov_h
    fov_v := fov_v
    depth := { width := 1, height := 1, pixel := fun _ _ => 1 }
    Hcam := eye4 }

/-- A camera query that `getCameraOptions` treats as failed: no connection, a failed
write, or a reply with fewer than 5 fields. -/
def queryFails : CamPort K → Prop
  | CamPort.disconnected => True
  | CamPort.writeFails => True
  | CamPort.replies rep => rep.size < 5

/-- A stand-in for `axis2dcm`: the identity rotation for every axis-angle. -/
def exampleAxis2dcm : (Fin 4 → ℚ) → Matrix4 ℚ := fun _ => eye4

/-- A pose message whose `depth` entry lists translation `(1,2,3)` and an orientation. -/
def examplePose : Property ℚ := fun key =>
  if key = "depth" then
    some [Value.dbl 1, Value.dbl 2, Value.dbl 3, Value.dbl 0, Value.dbl 0, Value.dbl 1,
      Value.dbl 0]
  else none

/-- A camera reply announcing fields of view of 60 and 45 degrees. -/
def exampleFovReply : Bottle ℚ :=
  [Value.vocab (Vocab.encode "visr"), Value.vocab (Vocab.encode "fov"),
   Value.vocab (Vocab.encode "is"), Value.dbl 60, Value.dbl 45]
/-! ## Auxiliary lemmas: loops -/

theorem flatMap_range_succ_left {α : Type} (f : Nat → List α) (k : Nat) :
    (List.range (k + 1)).flatMap f = f 0 ++ (List.range k).flatMap (fun j => f (j + 1)) := by
  rw [List.range_succ_eq_map, List.flatMap_cons, List.flatMap_map]

theorem length_flatMap_const {α β : Type} (l : List α) (f : α → List β) (c : Nat)
    (hf : ∀ a, (f a).length = c) : (l.flatMap f).length = l.length * c := by
  induction l with
  | nil => simp
  | cons a l ih => simp [List.flatMap_cons, ih, hf, Nat.succ_mul, Nat.add_comm]

theorem flatMap_range_congr {α : Type} (n : Nat) (f f2 : Nat → List α)
    (hf : ∀ k, k < n → f k = f2 k) :
    (List.range n).flatMap f = (List.range n).flatMap f2 := by
  induction n with
  | zero => rfl
  | succ n ih =>
    rw [List.range_succ, List.flatMap_append, List.flatMap_append,
      ih (fun k hk => hf k (Nat.lt_succ_of_lt hk))]
    simp [hf n (Nat.lt_succ_self n)]

theorem wrapInt_of_isInt (x : Int) (hx : isInt x) : wrapInt x = x := by
  unfold isInt INT_MIN INT_MAX at hx
  unfold wrapInt
  omega

theorem isInt_wrapInt (x : Int) : isInt (wrapInt x) := by
  unfold isInt INT_MIN INT_MAX wrapInt
  omega

theorem pixelReply_length (tan : K → K) (pi : K) (g : Gateway K) (u v : Int) :
    (pixelReply tan pi g u v).length = 3 := rfl

theorem specPoint_length (tan : K → K) (pi : K) (g : Gateway K) (u v : Int) :
    (specPoint tan pi g u v).length = 3 := rfl

/-- The loop body computes the point of the specification. -/
theorem pixelReply_eq_specPoint (tan : K → K) (pi : K) (g : Gateway K) (u v : Int) :
    pixelReply tan pi g u v = specPoint tan pi g u v := by
  simp [pixelReply, specPoint, mulVec, push_back, Matrix.mulVec, Matrix.dotProduct,
    Fin.sum_univ_four, add_assoc]

theorem isInt_between (a b x : Int) (ha : isInt a) (hb : isInt b) (hax : a ≤ x)
    (hxb : x ≤ b) : isInt x := by
  unfold isInt at *
  omega

theorem rectInner_eq (tan : K → K) (pi : K) (g : Gateway K) (u tly h step : Int)
    (hstep : 1 ≤ step) (hbound : isInt (tly + h)) :
    ∀ (k : Nat) (v : Int) (reply : Bottle K) (fuel : Nat),
      isInt v → isInt (v + (k : Int) * step) →
      (∀ j : Nat, j < k → v + (j : Int) * step < tly + h) →
      tly + h ≤ v + (k : Int) * step → k < fuel →
      rectInner tan pi g u tly h step fuel v reply
        = some (reply ++ (List.range k).flatMap
            (fun j => pixelReply tan pi g u (v + (j : Int) * step))) := by
  intro k
  induction k with
  | zero =>
    intro v reply fuel _ _ _ hge hfuel
    obtain ⟨f, rfl⟩ : ∃ f, fuel = f + 1 := ⟨fuel - 1, by omega⟩
    have : ¬ v < tly + h := by simpa using hge
    simp [rectInner, wrapInt_of_isInt _ hbound, this]
  | succ k ih =>
    intro v reply fuel hv hlast hlt hge hfuel
    obtain ⟨f, rfl⟩ : ∃ f, fuel = f + 1 := ⟨fuel - 1, by omega⟩
    have h0 : v < tly + h := by simpa using hlt 0 (Nat.succ_pos k)
    have hidx : ∀ j : Nat, v + step + (j : Int) * step = v + ((j + 1 : Nat) : Int) * step := by
      intro j; push_cast; ring
    have hk : 0 ≤ (k : Int) * step := mul_nonneg (Int.ofNat_nonneg k) (by omega)
    have hnext : isInt (v + step) :=
      isInt_between v _ _ hv hlast (by omega) (by rw [← hidx k]; omega)
    rw [rectInner, wrapInt_of_isInt _ hbound, if_pos h0, wrapInt_of_isInt _ hnext,
      ih (v + step) _ f hnext]
    · rw [flatMap_range_succ_left, List.append_assoc]
      simp only [hidx]
      simp
    · rw [hidx]; exact hlast
    · intro j hj
      rw [hidx]
      exact hlt (j + 1) (Nat.succ_lt_succ hj)
    · rw [hidx]; exact hge
    · omega

theorem rectOuter_eq (tan : K → K) (pi : K) (g : Gateway K) (tlx tly w h step : Int)
    (hstep : 1 ≤ step) (hbound : isInt (tlx + w)) (kv : Nat)
    (hinner : ∀ (u : Int) (reply : Bottle K) (fuel : Nat), kv < fuel →
      rectInner tan pi g u tly h step fuel tly reply
        = some (reply ++ (List.range kv).flatMap
            (fun j => pixelReply tan pi g u (tly + (j : Int) * step)))) :
    ∀ (ku : Nat) (u : Int) (reply : Bottle K) (fuel : Nat),
      isInt u → isInt (u + (ku : Int) * step) →
      (∀ i : Nat, i < ku → u + (i : Int) * step < tlx + w) →
      tlx + w ≤ u + (ku : Int) * step → ku + kv < fuel →
      rectOuter tan pi g tlx tly w h step fuel u reply
        = some (reply ++ (List.range ku).flatMap (fun i =>
            (List.range kv).flatMap (fun j =>
              pixelReply tan pi g (u + (i : Int) * step) (tly + (j : Int) * step)))) := by
  intro ku
  induction ku with
  | zero =>
    intro u reply fuel _ _ _ hge hfuel
    obtain ⟨f, rfl⟩ : ∃ f, fuel = f + 1 := ⟨fuel - 1, by omega⟩
    have : ¬ u < tlx + w := by simpa using hge
    simp [rectOuter, wrapInt_of_isInt _ hbound, this]
  | succ ku ih =>
    intro u reply fuel hu hlast hlt hge hfuel
    obtain ⟨f, rfl⟩ : ∃ f, fuel = f + 1 := ⟨fuel - 1, by omega⟩
    have h0 : u < tlx + w := by simpa using hlt 0 (Nat.succ_pos ku)
    have hidx : ∀ i : Nat, u + step + (i : Int) * step = u + ((i + 1 : Nat) : Int) * step := by
      intro i; push_cast; ring
    have hk : 0 ≤ (ku : Int) * step := mul_nonneg (Int.ofNat_nonneg ku) (by omega)
    have hnext : isInt (u + step) :=
      isInt_between u _ _ hu hlast (by omega) (by rw [← hidx ku]; omega)
    rw [rectOuter, wrapInt_of_isInt _ hbound, if_pos h0, hinner u reply f (by omega)]
    simp only
    rw [wrapInt_of_isInt _ hnext, ih (u + step) _ f hnext]
    · rw [flatMap_range_succ_left, List.append_assoc]
      simp only [hidx]
      simp
    · rw [hidx]; exact hlast
    · intro i hi
      rw [hidx]
      exact hlt (i + 1) (Nat.succ_lt_succ hi)
    · rw [hidx]; exact hge
    · omega

theorem rectCount_lt (len step base : Int) (hstep : 1 ≤ step) (j : Nat)
    (hj : j < rectCount len step) : base + (j : Int) * step < base + len := by
  have h1 : (j : Int) < ⌈(len : ℚ) / (step : ℚ)⌉ := Int.lt_toNat.mp hj
  have h2 : ((j : Int) : ℚ) < (len : ℚ) / (step : ℚ) := Int.lt_ceil.mp h1
  have hs : (0 : ℚ) < (step : ℚ) := by exact_mod_cast (by omega : (0 : Int) < step)
  have h3 : ((j : Int) : ℚ) * (step : ℚ) < (len : ℚ) := (lt_div_iff₀ hs).mp h2
  have h4 : (j : Int) * step < len := by exact_mod_cast h3
  omega

theorem rectCount_ge (len step base : Int) (hstep : 1 ≤ step) :
    base + len ≤ base + (rectCount len step : Int) * step := by
  have hs : (0 : ℚ) < (step : ℚ) := by exact_mod_cast (by omega : (0 : Int) < step)
  have h1 : (len : ℚ) / (step : ℚ) ≤ ((⌈(len : ℚ) / (step : ℚ)⌉ : Int) : ℚ) := Int.le_ceil _
  have h2 : ⌈(len : ℚ) / (step : ℚ)⌉ ≤ (rectCount len step : Int) := Int.self_le_toNat _
  have h3 : (len : ℚ) / (step : ℚ) ≤ ((rectCount len step : Int) : ℚ) :=
    le_trans h1 (by exact_mod_cast h2)
  have h4 : (len : ℚ) ≤ ((rectCount len step : Int) : ℚ) * (step : ℚ) := (div_le_iff₀ hs).mp h3
  have h5 : len ≤ (rectCount len step : Int) * step := by exact_mod_cast h4
  omega

theorem rectCount_nonpos (len step : Int) (hstep : 1 ≤ step) (hlen : len ≤ 0) :
    rectCount len step = 0 := by
  have hs : (0 : ℚ) < (step : ℚ) := by exact_mod_cast (by omega : (0 : Int) < step)
  have hl : (len : ℚ) ≤ 0 := by exact_mod_cast hlen
  have h1 : (len : ℚ) / (step : ℚ) ≤ ((0 : Int) : ℚ) := by
    simpa using div_nonpos_of_nonpos_of_nonneg hl hs.le
  have h2 : ⌈(len : ℚ) / (step : ℚ)⌉ ≤ 0 := Int.ceil_le.mpr h1
  exact Int.toNat_eq_zero.mpr h2

theorem rectInner_mono (tan : K → K) (pi : K) (g : Gateway K) (u tly h step : Int) :
    ∀ (fuel : Nat) (v : Int) (reply r : Bottle K),
      rectInner tan pi g u tly h step fuel v reply = some r →
      ∀ fuel2, fuel ≤ fuel2 → rectInner tan pi g u tly h step fuel2 v reply = some r := by
  intro fuel
  induction fuel with
  | zero => intro v reply r hr; simp [rectInner] at hr
  | succ f ih =>
    intro v reply r hr fuel2 hle
    obtain ⟨f2, rfl⟩ : ∃ f2, fuel2 = f2 + 1 := ⟨fuel2 - 1, by omega⟩
    rw [rectInner] at hr ⊢
    by_cases hv : v < wrapInt (tly + h)
    · rw [if_pos hv] at hr ⊢
      exact ih _ _ _ hr f2 (by omega)
    · rw [if_neg hv] at hr ⊢
      exact hr

theorem rectOuter_mono (tan : K → K) (pi : K) (g : Gateway K) (tlx tly w h step : Int) :
    ∀ (fuel : Nat) (u : Int) (reply r : Bottle K),
      rectOuter tan pi g tlx tly w h step fuel u reply = some r →
      ∀ fuel2, fuel ≤ fuel2 → rectOuter tan pi g tlx tly w h step fuel2 u reply = some r := by
  intro fuel
  induction fuel with
  | zero => intro u reply r hr; simp [rectOuter] at hr
  | succ f ih =>
    intro u reply r hr fuel2 hle
    obtain ⟨f2, rfl⟩ : ∃ f2, fuel2 = f2 + 1 := ⟨fuel2 - 1, by omega⟩
    rw [rectOuter] at hr ⊢
    by_cases hu : u < wrapInt (tlx + w)
    · rw [if_pos hu] at hr ⊢
      cases hin : rectInner tan pi g u tly h step f tly reply with
      | none => rw [hin] at hr; simp at hr
      | some r1 =>
        rw [hin] at hr
        rw [rectInner_mono tan pi g u tly h step f tly reply r1 hin f2 (by omega)]
        exact ih _ _ _ hr f2 (by omega)
    · rw [if_neg hu] at hr ⊢
      exact hr

/-- With a step of 0 an entered outer loop never ends: its variable does not move. -/
theorem rectOuter_diverges (tan : K → K) (pi : K) (g : Gateway K) (tlx tly w h : Int) :
    ∀ (fuel : Nat) (u : Int) (reply : Bottle K), isInt u → u < wrapInt (tlx + w) →
      rectOuter tan pi g tlx tly w h 0 fuel u reply = none := by
  intro fuel
  induction fuel with
  | zero => intro u reply _ _; rfl
  | succ f ih =>
    intro u reply hu hlt
    rw [rectOuter, if_pos hlt]
    cases rectInner tan pi g u tly h 0 f tly reply with
    | none => rfl
    | some r1 =>
      simp only
      rw [Int.add_zero, wrapInt_of_isInt u hu]
      exact ih u r1 hu hlt

/-- An outer loop that is not entered returns the reply it was given. -/
theorem rectOuter_not_entered (tan : K → K) (pi : K) (g : Gateway K)
    (tlx tly w h step : Int) (fuel : Nat) (u : Int) (reply : Bottle K)
    (hu : wrapInt (tlx + w) ≤ u) :
    rectOuter tan pi g tlx tly w h step (fuel + 1) u reply = some reply := by
  rw [rectOuter, if_neg (by omega)]

/-- The scan of `Rect` with a step of at least 1 and no overflow: with enough fuel it
yields the reply of the specification. -/
theorem rectOuter_spec (tan : K → K) (pi : K) (g : Gateway K) (tlx tly w h step : Int)
    (hstep : 1 ≤ step) (hfits : rectFits tlx tly w h step) (fuel : Nat)
    (hfuel : rectCount w step + rectCount h step < fuel) :
    rectOuter tan pi g tlx tly w h step fuel tlx [] = some (rectSpec tan pi g tlx tly w h step) := by
  obtain ⟨⟨hx0, hxb, hxl⟩, hy⟩ := hfits
  by_cases hw : 0 < w
  · obtain ⟨hy0, hyb, hyl⟩ := hy hw
    rw [rectOuter_eq tan pi g tlx tly w h step hstep hxb (rectCount h step)
      (fun u reply fuel hf => rectInner_eq tan pi g u tly h step hstep hyb (rectCount h step)
        tly reply fuel hy0 hyl (fun j hj => rectCount_lt h step tly hstep j hj)
        (rectCount_ge h step tly hstep) hf)
      (rectCount w step) tlx [] fuel hx0 hxl
      (fun i hi => rectCount_lt w step tlx hstep i hi) (rectCount_ge w step tlx hstep) hfuel]
    simp only [pixelReply_eq_specPoint, List.nil_append, rectSpec]
  · obtain ⟨f, rfl⟩ : ∃ f, fuel = f + 1 := ⟨fuel - 1, by omega⟩
    rw [rectOuter_not_entered tan pi g tlx tly w h step f tlx []
      (by rw [wrapInt_of_isInt _ hxb]; omega)]
    simp [rectSpec, rectCount_nonpos w step hstep (by omega)]

theorem rectSpec_length (tan : K → K) (pi : K) (g : Gateway K) (tlx tly w h step : Int) :
    (rectSpec tan pi g tlx tly w h step).length
      = 3 * (rectCount w step * rectCount h step) := by
  unfold rectSpec
  rw [length_flatMap_const _ _ (rectCount h step * 3)]
  · simp [Nat.mul_comm, Nat.mul_left_comm]
  · intro i
    rw [length_flatMap_const _ _ 3]
    · simp
    · intro j; rfl

theorem pointsLoop_eq (tan : K → K) (pi : K) (g : Gateway K) (command : Bottle K) :
    ∀ (r cnt : Nat) (reply : Bottle K),
      (∀ j : Nat, j < r → cnt + 2 * j < command.size - 1) →
      command.size - 1 ≤ cnt + 2 * r →
      pointsLoop tan pi g command cnt reply
        = reply ++ (List.range r).flatMap (fun j =>
            pixelReply tan pi g (command.get (cnt + 2 * j)).asInt
              (command.get (cnt + 2 * j + 1)).asInt) := by
  intro r
  induction r with
  | zero =>
    intro cnt reply _ hge
    rw [pointsLoop, if_neg (by omega)]
    simp
  | succ r ih =>
    intro cnt reply hlt hge
    have h0 : cnt < command.size - 1 := by simpa using hlt 0 (Nat.succ_pos r)
    have hidx : ∀ j : Nat, cnt + 2 + 2 * j = cnt + 2 * (j + 1) := by intro j; ring
    rw [pointsLoop, if_pos h0]
    simp only
    rw [ih (cnt + 2) _]
    · rw [flatMap_range_succ_left, List.append_assoc]
      simp only [hidx]
      simp
    · intro j hj
      rw [hidx]
      exact hlt (j + 1) (Nat.succ_lt_succ hj)
    · omega

theorem asInt_get_map_int (cs : List Int) (i : Nat) :
    (Bottle.get (cs.map Value.int : Bottle K) i).asInt = cs.getD i 0 := by
  unfold Bottle.get
  induction cs generalizing i with
  | nil => simp [Value.asInt]
  | cons c cs ih =>
    cases i with
    | zero => simp [Value.asInt]
    | succ i => simpa using ih i

theorem respondTraced_pointsCommand (tan : K → K) (pi : K) (g : Gateway K) (fuel : Nat)
    (cs : List Int) (hn : 2 ≤ cs.length) :
    respondTraced tan pi g fuel (pointsCommand cs)
      = (some (true, pointsSpec tan pi g cs), [SharedAccess.lock, SharedAccess.unlock]) := by
  have hsize : (pointsCommand cs : Bottle K).size = cs.length + 1 := by
    simp [pointsCommand, Bottle.size]
  have hcmd : ((pointsCommand cs : Bottle K).get 0).asString = "Points" := rfl
  have hloop := pointsLoop_eq tan pi g (pointsCommand cs) (cs.length / 2) 1 []
    (by intro j hj; rw [hsize]; omega) (by rw [hsize]; omega)
  have hget : ∀ i : Nat, ((pointsCommand cs : Bottle K).get (1 + i)).asInt = cs.getD i 0 := by
    intro i
    have := asInt_get_map_int (K := K) cs i
    simpa [pointsCommand, Bottle.get, Nat.add_comm] using this
  unfold respondTraced
  rw [if_neg (by rw [hsize]; omega)]
  simp only [hcmd]
  rw [if_neg (by decide), if_neg (by decide), if_neg (by simp),
    if_pos ⟨trivial, by rw [hsize]; omega⟩, hloop]
  simp only [pointsSpec, List.nil_append, Nat.add_assoc, hget, pixelReply_eq_specPoint]

theorem respond_pointsCommand (tan : K → K) (pi : K) (g : Gateway K) (fuel : Nat)
    (cs : List Int) (hn : 2 ≤ cs.length) :
    respond tan pi g fuel (pointsCommand cs) = some (true, pointsSpec tan pi g cs) := by
  unfold respond
  rw [respondTraced_pointsCommand tan pi g fuel cs hn]

theorem respondTraced_rectCommand (tan : K → K) (pi : K) (g : Gateway K) (fuel : Nat)
    (tlx tly w h : Int) (ostep : Option Int) :
    respondTraced tan pi g fuel (rectCommand tlx tly w h ostep)
      = match rectOuter tan pi g tlx tly w h (ostep.getD 1) fuel tlx [] with
        | none => (none, [SharedAccess.lock])
        | some reply => (some (true, reply), [SharedAccess.lock, SharedAccess.unlock]) := by
  cases ostep with
  | none =>
    simp [respondTraced, rectCommand, Bottle.size, Bottle.get, Value.asString, Value.asInt]
  | some s =>
    simp [respondTraced, rectCommand, Bottle.size, Bottle.get, Value.asString, Value.asInt]

theorem respond_rectCommand (tan : K → K) (pi : K) (g : Gateway K) (fuel : Nat)
    (tlx tly w h : Int) (ostep : Option Int) :
    respond tan pi g fuel (rectCommand tlx tly w h ostep)
      = (rectOuter tan pi g tlx tly w h (ostep.getD 1) fuel tlx []).map
          (fun reply => (true, reply)) := by
  unfold respond
  rw [respondTraced_rectCommand]
  cases rectOuter tan pi g tlx tly w h (ostep.getD 1) fuel tlx [] <;> rfl

theorem rectCount_eq_of_ceil (len step : Int) (n : Nat)
    (hc : ⌈(len : ℚ) / (step : ℚ)⌉ = (n : Int)) : rectCount len step = n := by
  unfold rectCount
  rw [hc]
  exact Int.toNat_natCast n

theorem rectCount_four_two : rectCount 4 2 = 2 :=
  rectCount_eq_of_ceil 4 2 2 (by rw [Int.ceil_eq_iff]; norm_num)

theorem rectCount_two_two : rectCount 2 2 = 1 :=
  rectCount_eq_of_ceil 2 2 1 (by rw [Int.ceil_eq_iff]; norm_num)

theorem rectCount_one_one : rectCount 1 1 = 1 :=
  rectCount_eq_of_ceil 1 1 1 (by rw [Int.ceil_eq_iff]; norm_num)

theorem rectSpec_example (tan : K → K) (pi : K) (g : Gateway K) :
    rectSpec tan pi g 0 0 4 2 2 = specPoint tan pi g 0 0 ++ specPoint tan pi g 2 0 := by
  unfold rectSpec
  rw [rectCount_four_two, rectCount_two_two]
  simp [List.range_succ, List.flatMap_cons]

theorem rectFits_example : rectFits 0 0 4 2 2 := by
  unfold rectFits scanFits
  rw [rectCount_four_two, rectCount_two_two]
  unfold isInt INT_MIN INT_MAX
  decide

theorem pointsSpec_length (tan : K → K) (pi : K) (g : Gateway K) (cs : List Int) :
    (pointsSpec tan pi g cs).length = 3 * (cs.length / 2) := by
  unfold pointsSpec
  rw [length_flatMap_const _ _ 3 (fun k => specPoint_length tan pi g _ _)]
  simp [Nat.mul_comm]

theorem pointsSpec_append_unpaired (tan : K → K) (pi : K) (g : Gateway K) (cs : List Int)
    (c : Int) (heven : cs.length % 2 = 0) :
    pointsSpec tan pi g (cs ++ [c]) = pointsSpec tan pi g cs := by
  unfold pointsSpec
  have hlen : (cs ++ [c]).length / 2 = cs.length / 2 := by
    rw [List.length_append, List.length_singleton]; omega
  rw [hlen]
  apply flatMap_range_congr
  intro k hk
  rw [List.getD_append _ _ _ _ (by omega), List.getD_append _ _ _ _ (by omega)]

/-! ## The point of one pixel -/

theorem specPoint_expand (tan : K → K) (pi : K) (g : Gateway K) (u v : Int) :
    specPoint tan pi g u v
      = [Value.dbl (g.Hcam 0 0 * getPoint3D tan pi g u v 0 + g.Hcam 0 1 * getPoint3D tan pi g u v 1
            + g.Hcam 0 2 * getPoint3D tan pi g u v 2 + g.Hcam 0 3 * 1),
         Value.dbl (g.Hcam 1 0 * getPoint3D tan pi g u v 0 + g.Hcam 1 1 * getPoint3D tan pi g u v 1
            + g.Hcam 1 2 * getPoint3D tan pi g u v 2 + g.Hcam 1 3 * 1),
         Value.dbl (g.Hcam 2 0 * getPoint3D tan pi g u v 0 + g.Hcam 2 1 * getPoint3D tan pi g u v 1
            + g.Hcam 2 2 * getPoint3D tan pi g u v 2 + g.Hcam 2 3 * 1)] := by
  simp [specPoint, Matrix.mulVec, Matrix.dotProduct, Fin.sum_univ_four, add_assoc]

theorem getPoint3D_example_0_0 :
    getPoint3D exampleTan examplePi exampleGateway 0 0 = ![-3 / 4, -1 / 2, 1] := by
  simp [getPoint3D, getPoint3DTraced, exampleGateway, exampleDepth, exampleTan]
  norm_num

theorem getPoint3D_example_2_0 :
    getPoint3D exampleTan examplePi exampleGateway 2 0 = ![3 / 4, -3 / 2, 3] := by
  simp [getPoint3D, getPoint3DTraced, exampleGateway, exampleDepth, exampleTan]
  norm_num

theorem specPoint_example_0_0 :
    specPoint exampleTan examplePi exampleGateway 0 0
      = [Value.dbl (17 / 4), Value.dbl (-1 / 2), Value.dbl 1] := by
  rw [specPoint_expand, getPoint3D_example_0_0]
  simp [exampleGateway, Matrix4.set, eye4, Matrix.vecHead, Matrix.vecTail]
  norm_num

theorem specPoint_example_2_0 :
    specPoint exampleTan examplePi exampleGateway 2 0
      = [Value.dbl (23 / 4), Value.dbl (-3 / 2), Value.dbl 3] := by
  rw [specPoint_expand, getPoint3D_example_2_0]
  simp [exampleGateway, Matrix4.set, eye4, Matrix.vecHead, Matrix.vecTail]
  norm_num

theorem getPoint3D_example8_1_2 :
    getPoint3D exampleTan examplePi exampleGateway8 1 2 = ![-55 / 4, -33 / 4, 22] := by
  simp [getPoint3D, getPoint3DTraced, exampleGateway8, exampleDepth8, exampleTan]
  norm_num

theorem getPoint3D_example8_3_4 :
    getPoint3D exampleTan examplePi exampleGateway8 3 4 = ![-11 / 2, 11 / 2, 44] := by
  simp [getPoint3D, getPoint3DTraced, exampleGateway8, exampleDepth8, exampleTan]
  norm_num

theorem specPoint_example8_1_2 :
    specPoint exampleTan examplePi exampleGateway8 1 2
      = [Value.dbl (53 / 4), Value.dbl (-55 / 4), Value.dbl 22] := by
  rw [specPoint_expand, getPoint3D_example8_1_2]
  simp only [exampleGateway8]
  norm_num [Matrix.vecHead, Matrix.vecTail]

theorem specPoint_example8_3_4 :
    specPoint exampleTan examplePi exampleGateway8 3 4
      = [Value.dbl (-1 / 2), Value.dbl (-11 / 2), Value.dbl 44] := by
  rw [specPoint_expand, getPoint3D_example8_3_4]
  simp only [exampleGateway8]
  norm_num [Matrix.vecHead, Matrix.vecTail]

/-! ## The `Rect` request -/

/-- C1 (amended): for every `Rect tlx tly w h [step]` request with integer arguments,
`step ≥ 1` (`step = 1` when the sixth token is absent) and no overflow of the 32-bit
additions of the scan (`rectFits`), `respond` returns `true` with exactly the reply
`rectSpec`: the concatenation, for `u = tlx + i*step`, `i < ceil(w/step)` (outer) and
`v = tly + j*step`, `j < ceil(h/step)` (inner), of the first three components of
`Hcam * (getPoint3D(u,v), 1)`, each of which is spelled out. It does so for every fuel
above `ceil(w/step) + ceil(h/step)`, and no amount of fuel yields another result. The
reply holds `3 * ceil(w/step) * ceil(h/step)` doubles, none when `w ≤ 0` or `h ≤ 0`,
and `Rect 0 0 4 2 2` yields the two points of pixels `(0,0)` then `(2,0)`. -/
theorem respond_rect_column_major (tan : K → K) (pi : K) (g : Gateway K)
    (tlx tly w h : Int) (ostep : Option Int) (hstep : 1 ≤ ostep.getD 1)
    (hfits : rectFits tlx tly w h (ostep.getD 1)) :
    (∀ fuel : Nat, rectCount w (ostep.getD 1) + rectCount h (ostep.getD 1) < fuel →
        respond tan pi g fuel (rectCommand tlx tly w h ostep)
          = some (true, rectSpec tan pi g tlx tly w h (ostep.getD 1)))
    ∧ (∀ (fuel : Nat) (r : Bool × Bottle K),
        respond tan pi g fuel (rectCommand tlx tly w h ostep) = some r →
          r = (true, rectSpec tan pi g tlx tly w h (ostep.getD 1)))
    ∧ (∀ u v : Int, specPoint tan pi g u v
        = [Value.dbl (g.Hcam 0 0 * getPoint3D tan pi g u v 0
              + g.Hcam 0 1 * getPoint3D tan pi g u v 1
              + g.Hcam 0 2 * getPoint3D tan pi g u v 2 + g.Hcam 0 3 * 1),
           Value.dbl (g.Hcam 1 0 * getPoint3D tan pi g u v 0
              + g.Hcam 1 1 * getPoint3D tan pi g u v 1
              + g.Hcam 1 2 * getPoint3D tan pi g u v 2 + g.Hcam 1 3 * 1),
           Value.dbl (g.Hcam 2 0 * getPoint3D tan pi g u v 0
              + g.Hcam 2 1 * getPoint3D tan pi g u v 1
              + g.Hcam 2 2 * getPoint3D tan pi g u v 2 + g.Hcam 2 3 * 1)])
    ∧ (rectSpec tan pi g tlx tly w h (ostep.getD 1)).length
        = 3 * (Int.toNat ⌈(w : ℚ) / ((ostep.getD 1 : Int) : ℚ)⌉
                * Int.toNat ⌈(h : ℚ) / ((ostep.getD 1 : Int) : ℚ)⌉)
    ∧ (w ≤ 0 ∨ h ≤ 0 → rectSpec tan pi g tlx tly w h (ostep.getD 1) = [])
    ∧ (∀ fuel : Nat, 3 < fuel →
        respond tan pi g fuel (rectCommand 0 0 4 2 (some 2))
          = some (true, specPoint tan pi g 0 0 ++ specPoint tan pi g 2 0)) := by
  have hmain : ∀ fuel : Nat,
      rectCount w (ostep.getD 1) + rectCount h (ostep.getD 1) < fuel →
      respond tan pi g fuel (rectCommand tlx tly w h ostep)
        = some (true, rectSpec tan pi g tlx tly w h (ostep.getD 1)) := by
    intro fuel hfuel
    rw [respond_rectCommand, rectOuter_spec tan pi g tlx tly w h _ hstep hfits fuel hfuel]
    rfl
  refine ⟨hmain, ?_, specPoint_expand tan pi g, rectSpec_length tan pi g tlx tly w h _,
    ?_, ?_⟩
  · intro fuel r hr
    rw [respond_rectCommand] at hr
    cases hout : rectOuter tan pi g tlx tly w h (ostep.getD 1) fuel tlx [] with
    | none => rw [hout] at hr; simp at hr
    | some reply =>
      rw [hout] at hr
      have hbig := rectOuter_mono tan pi g tlx tly w h (ostep.getD 1) fuel tlx [] reply hout
        (fuel + (rectCount w (ostep.getD 1) + rectCount h (ostep.getD 1) + 1)) (by omega)
      rw [rectOuter_spec tan pi g tlx tly w h _ hstep hfits _ (by omega)] at hbig
      simp only [Option.map_some', Option.some.injEq] at hr hbig
      rw [← hr, hbig]
  · intro hwh
    have hlen := rectSpec_length tan pi g tlx tly w h (ostep.getD 1)
    rcases hwh with hw | hh
    · rw [rectCount_nonpos w _ hstep hw] at hlen
      exact List.length_eq_zero.mp (by simpa using hlen)
    · rw [rectCount_nonpos h _ hstep hh] at hlen
      exact List.length_eq_zero.mp (by simpa using hlen)
  · intro fuel hfuel
    rw [respond_rectCommand, rectOuter_spec tan pi g 0 0 4 2 _ (by decide)
      (by simpa using rectFits_example) fuel
      (by simp only [Option.getD_some]; rw [rectCount_four_two, rectCount_two_two]; omega)]
    simp only [Option.getD_some, Option.map_some', rectSpec_example]

theorem respond_rect_column_major_witness :
    (1 : Int) ≤ (some 2 : Option Int).getD 1
    ∧ rectFits 0 0 4 2 ((some 2 : Option Int).getD 1)
    ∧ respond exampleTan examplePi exampleGateway 4 (rectCommand 0 0 4 2 (some 2))
        = some (true, [Value.dbl (17 / 4), Value.dbl (-1 / 2), Value.dbl 1,
            Value.dbl (23 / 4), Value.dbl (-3 / 2), Value.dbl 3]) := by
  refine ⟨by decide, rectFits_example, ?_⟩
  rw [(respond_rect_column_major exampleTan examplePi exampleGateway 0 0 4 2 (some 2)
      (by decide) rectFits_example).2.2.2.2.2 4 (by decide),
    specPoint_example_0_0, specPoint_example_2_0]
  rfl

/-- C1 fails when `tlx + w` overflows: for `Rect 2147483647 0 1 1` the bound wraps to
`INT_MIN`, the outer loop is not entered and the reply is empty, whereas the claim
promises `ceil(1/1) * ceil(1/1) = 1` point of 3 doubles. -/
theorem respond_rect_overflow_empty :
    (1 : Int) ≤ (none : Option Int).getD 1
    ∧ respond exampleTan examplePi exampleGateway 1 (rectCommand 2147483647 0 1 1 none)
        = some (true, [])
    ∧ 3 * (Int.toNat ⌈((1 : Int) : ℚ) / (((none : Option Int).getD 1 : Int) : ℚ)⌉
            * Int.toNat ⌈((1 : Int) : ℚ) / (((none : Option Int).getD 1 : Int) : ℚ)⌉) = 3
    ∧ respond exampleTan examplePi exampleGateway 1 (rectCommand 2147483647 0 1 1 none)
        ≠ some (true, rectSpec exampleTan examplePi exampleGateway 2147483647 0 1 1 1) := by
  have hempty : respond exampleTan examplePi exampleGateway 1
      (rectCommand 2147483647 0 1 1 none) = some (true, []) := by
    rw [respond_rectCommand, Option.getD_none,
      rectOuter_not_entered exampleTan examplePi exampleGateway 2147483647 0 1 1 1 0
        2147483647 [] (by decide)]
    rfl
  have hcount : rectCount 1 1 = 1 := rectCount_one_one
  refine ⟨by decide, hempty, ?_, ?_⟩
  · show 3 * (rectCount 1 1 * rectCount 1 1) = 3
    rw [hcount]
  · rw [hempty]
    intro hc
    have hlen := rectSpec_length exampleTan examplePi exampleGateway 2147483647 0 1 1 1
    rw [hcount] at hlen
    simp only [Option.some.injEq, Prod.mk.injEq, true_and] at hc
    rw [← hc] at hlen
    simp at hlen

/-! ## The `Points` request -/

/-- C2: for every `Points c1 ... cn` request with `n ≥ 2` integer coordinates,
`respond` returns `true` (whatever the fuel) and the reply is `pointsSpec`: `floor(n/2)`
points of 3 doubles, the k-th being the first three components of
`Hcam * (getPoint3D(c_{2k-1}, c_{2k}), 1)`, each of which is spelled out, in input
order. An unpaired last coordinate influences nothing: appending any `c` to an
even-length list leaves the reply unchanged. `Points 1 2 3 4 5` yields the two points of
pixels `(1,2)` and `(3,4)`. -/
theorem respond_points_pairs (tan : K → K) (pi : K) (g : Gateway K) (cs : List Int)
    (hn : 2 ≤ cs.length) :
    (∀ fuel : Nat,
        respond tan pi g fuel (pointsCommand cs) = some (true, pointsSpec tan pi g cs))
    ∧ (∀ u v : Int, specPoint tan pi g u v
        = [Value.dbl (g.Hcam 0 0 * getPoint3D tan pi g u v 0
              + g.Hcam 0 1 * getPoint3D tan pi g u v 1
              + g.Hcam 0 2 * getPoint3D tan pi g u v 2 + g.Hcam 0 3 * 1),
           Value.dbl (g.Hcam 1 0 * getPoint3D tan pi g u v 0
              + g.Hcam 1 1 * getPoint3D tan pi g u v 1
              + g.Hcam 1 2 * getPoint3D tan pi g u v 2 + g.Hcam 1 3 * 1),
           Value.dbl (g.Hcam 2 0 * getPoint3D tan pi g u v 0
              + g.Hcam 2 1 * getPoint3D tan pi g u v 1
              + g.Hcam 2 2 * getPoint3D tan pi g u v 2 + g.Hcam 2 3 * 1)])
    ∧ (pointsSpec tan pi g cs).length = 3 * (cs.length / 2)
    ∧ (cs.length % 2 = 0 → ∀ (c : Int) (fuel : Nat),
        respond tan pi g fuel (pointsCommand (cs ++ [c]))
          = some (true, pointsSpec tan pi g cs))
    ∧ (∀ fuel : Nat,
        respond tan pi g fuel (pointsCommand [1, 2, 3, 4, 5])
          = some (true, specPoint tan pi g 1 2 ++ specPoint tan pi g 3 4)) := by
  refine ⟨fun fuel => respond_pointsCommand tan pi g fuel cs hn, specPoint_expand tan pi g,
    pointsSpec_length tan pi g cs, ?_, ?_⟩
  · intro heven c fuel
    rw [respond_pointsCommand tan pi g fuel (cs ++ [c])
      (by rw [List.length_append]; omega), pointsSpec_append_unpaired tan pi g cs c heven]
  · intro fuel
    rw [respond_pointsCommand tan pi g fuel [1, 2, 3, 4, 5] (by decide)]
    simp [pointsSpec, List.range_succ, List.flatMap_cons]

theorem respond_points_pairs_witness :
    2 ≤ ([1, 2, 3, 4] : List Int).length
    ∧ respond exampleTan examplePi exampleGateway8 0 (pointsCommand [1, 2, 3, 4, 5])
        = some (true, [Value.dbl (53 / 4), Value.dbl (-55 / 4), Value.dbl 22,
            Value.dbl (-1 / 2), Value.dbl (-11 / 2), Value.dbl 44]) := by
  refine ⟨by decide, ?_⟩
  rw [(respond_points_pairs exampleTan examplePi exampleGateway8 [1, 2, 3, 4]
      (by decide)).2.2.2.2 0, specPoint_example8_1_2, specPoint_example8_3_4]
  rfl

/-- C7 (amended): a `Points` request whose coordinate list has odd length `n ≥ 3` is
not answered with an error: the reply is `pointsSpec`, `floor(n/2)` points of 3
doubles, and it is not the `NACK` message. -/
theorem respond_points_odd_no_nack (tan : K → K) (pi : K) (g : Gateway K) (cs : List Int)
    (hodd : cs.length % 2 = 1) (hn : 3 ≤ cs.length) (fuel : Nat) :
    ∃ reply : Bottle K,
      respond tan pi g fuel (pointsCommand cs) = some (true, reply)
      ∧ reply = pointsSpec tan pi g cs
      ∧ reply.length = 3 * (cs.length / 2)
      ∧ reply ≠ [Value.str "NACK"] := by
  refine ⟨pointsSpec tan pi g cs, respond_pointsCommand tan pi g fuel cs (by omega), rfl,
    pointsSpec_length tan pi g cs, ?_⟩
  intro hnack
  have hlen := pointsSpec_length tan pi g cs
  rw [hnack] at hlen
  simp at hlen
  omega

theorem respond_points_odd_no_nack_witness :
    ∃ reply : Bottle ℚ,
      respond exampleTan examplePi exampleGateway 0 (pointsCommand [1, 2, 3]) = some (true, reply)
      ∧ reply = pointsSpec exampleTan examplePi exampleGateway [1, 2, 3]
      ∧ reply.length = 3 * (([1, 2, 3] : List Int).length / 2)
      ∧ reply ≠ [Value.str "NACK"] :=
  respond_points_odd_no_nack exampleTan examplePi exampleGateway [1, 2, 3]
    (by decide) (by decide) 0

/-- C7 fails for `n = 1`: `Points 7` is answered with the `NACK` message, not with an
empty list of points. -/
theorem respond_points_single_coordinate_nack :
    respond exampleTan examplePi exampleGateway 0 (pointsCommand [7])
        = some (true, [Value.str "NACK"])
    ∧ respond exampleTan examplePi exampleGateway 0 (pointsCommand [7]) ≠ some (true, []) := by
  have h : respond exampleTan examplePi exampleGateway 0 (pointsCommand [7])
      = some (true, [Value.str "NACK"]) := by
    simp [respond, respondTraced, pointsCommand, Bottle.size, Bottle.get, Value.asString]
  exact ⟨h, by rw [h]; simp⟩

/-! ## Requests that are not recognised -/

/-- C3 (amended): a request with at least one token that is none of `quit`, `help`,
`Rect` with at least 4 further tokens, `Points` with at least 2 further tokens, gets the
one-element reply `["NACK"]` and `respond` returns `true`; so do `Foo` and a `Rect` with
3 arguments. A request with no token at all gets an empty reply and `false`. -/
theorem respond_unrecognised_nack (tan : K → K) (pi : K) (g : Gateway K) (fuel : Nat)
    (command : Bottle K) (hsize : command.size ≠ 0)
    (hquit : (command.get 0).asString ≠ "quit")
    (hhelp : (command.get 0).asString ≠ "help")
    (hrect : ¬ ((command.get 0).asString = "Rect" ∧ command.size ≥ 5))
    (hpoints : ¬ ((command.get 0).asString = "Points" ∧ command.size ≥ 3)) :
    respond tan pi g fuel command = some (true, [Value.str "NACK"])
    ∧ respond tan pi g fuel [Value.str "Foo"] = some (true, [Value.str "NACK"])
    ∧ respond tan pi g fuel [Value.str "Rect", Value.int 0, Value.int 0, Value.int 4]
        = some (true, [Value.str "NACK"])
    ∧ respond tan pi g fuel [] = some (false, []) := by
  refine ⟨?_, ?_, ?_, ?_⟩
  · unfold respond respondTraced
    rw [if_neg hsize]
    simp only
    rw [if_neg hquit, if_neg hhelp, if_neg hrect, if_neg hpoints]
  · simp [respond, respondTraced, Bottle.size, Bottle.get, Value.asString]
  · simp [respond, respondTraced, Bottle.size, Bottle.get, Value.asString]
  · simp [respond, respondTraced, Bottle.size]

theorem respond_unrecognised_nack_witness :
    respond exampleTan examplePi exampleGateway 0 [Value.str "Points", Value.int 7]
      = some (true, [Value.str "NACK"]) :=
  (respond_unrecognised_nack exampleTan examplePi exampleGateway 0
    [Value.str "Points", Value.int 7] (by decide) (by decide) (by decide)
    (by simp [Bottle.get, Value.asString]) (by simp [Bottle.size])).1

/-- C3 fails for the request with no tokens: `respond` returns `false` with an empty
reply instead of `true` with `["NACK"]`. -/
theorem respond_empty_request_returns_false :
    respond exampleTan examplePi exampleGateway 0 [] = some (false, [])
    ∧ respond exampleTan examplePi exampleGateway 0 [] ≠ some (true, [Value.str "NACK"]) := by
  have h : respond exampleTan examplePi exampleGateway 0 [] = some (false, []) := by
    simp [respond, respondTraced, Bottle.size]
  exact ⟨h, by rw [h]; simp⟩

/-! ## Unprojection -/

theorem getPoint3DTraced_of_guard_false (tan : K → K) (pi : K) (g : Gateway K) (u v : Int)
    (h : ¬ (u ≥ 0 ∧ u < (g.depth.width : Int) ∧ v ≥ 0 ∧ v < (g.depth.height : Int)
      ∧ g.fov_h > 0 ∧ g.fov_v > 0)) :
    getPoint3DTraced tan pi g u v = (![0, 0, 0], []) := by
  unfold getPoint3DTraced
  rw [if_neg h]

theorem getPoint3D_of_degenerate (tan : K → K) (pi : K) (g : Gateway K) (u v : Int)
    (hdeg : degeneratePixel g u v) : getPoint3D tan pi g u v = ![0, 0, 0] := by
  unfold getPoint3D getPoint3DTraced
  by_cases hg : u ≥ 0 ∧ u < (g.depth.width : Int) ∧ v ≥ 0 ∧ v < (g.depth.height : Int)
      ∧ g.fov_h > 0 ∧ g.fov_v > 0
  · rw [if_pos hg]
    obtain ⟨hu0, hu1, hv0, hv1, hfh, hfv⟩ := hg
    rcases hdeg with hb | hd | hf | hf
    · exact absurd ⟨hu0, hu1, hv0, hv1⟩ hb
    · simp only
      rw [if_neg (fun hc => absurd hc.1 (not_lt.mpr hd))]
    · exact absurd hfh (not_lt.mpr hf)
    · exact absurd hfv (not_lt.mpr hf)
  · rw [if_neg hg]

/-- C4: `getPoint3D(u,v)` is the zero point in each of three cases, whatever the other
inputs are: the pixel is outside `[0,width) x [0,height)`, the depth sample at `(u,v)`
is `≤ 0`, or `fov_h ≤ 0` or `fov_v ≤ 0`. When the pixel is outside the frame no depth
sample is read. -/
theorem getPoint3D_degenerate_zero (tan : K → K) (pi : K) (g : Gateway K) (u v : Int)
    (hdeg : ¬ (0 ≤ u ∧ u < (g.depth.width : Int) ∧ 0 ≤ v ∧ v < (g.depth.height : Int))
      ∨ g.depth.pixel u v ≤ 0 ∨ (g.fov_h ≤ 0 ∨ g.fov_v ≤ 0)) :
    getPoint3D tan pi g u v = ![0, 0, 0]
    ∧ (¬ (0 ≤ u ∧ u < (g.depth.width : Int) ∧ 0 ≤ v ∧ v < (g.depth.height : Int)) →
        (getPoint3DTraced tan pi g u v).2 = []) := by
  refine ⟨getPoint3D_of_degenerate tan pi g u v hdeg, ?_⟩
  intro hb
  rw [getPoint3DTraced_of_guard_false tan pi g u v
    (fun hc => hb ⟨hc.1, hc.2.1, hc.2.2.1, hc.2.2.2.1⟩)]

theorem getPoint3D_degenerate_zero_witness :
    getPoint3D exampleTan examplePi exampleGateway 4 0 = ![0, 0, 0]
    ∧ (¬ ((0 : Int) ≤ 4 ∧ (4 : Int) < (exampleGateway.depth.width : Int)
          ∧ (0 : Int) ≤ 0 ∧ (0 : Int) < (exampleGateway.depth.height : Int)) →
        (getPoint3DTraced exampleTan examplePi exampleGateway 4 0).2 = []) :=
  getPoint3D_degenerate_zero exampleTan examplePi exampleGateway 4 0
    (Or.inl (by simp [exampleGateway, exampleDepth]))

theorem half_angle_eq (fov : ℝ) : fov * (Real.pi / 180) / 2 = fov * Real.pi / 360 := by
  ring

theorem tan_half_right_angle : Real.tan ((90 : ℝ) * Real.pi / 360) = 1 := by
  rw [show (90 : ℝ) * Real.pi / 360 = Real.pi / 4 by ring]
  exact Real.tan_pi_div_four

theorem tan_half_three_right_angles : Real.tan ((270 : ℝ) * Real.pi / 360) = -1 := by
  rw [show (270 : ℝ) * Real.pi / 360 = -(Real.pi / 4) + Real.pi by ring,
    Real.tan_add_pi, Real.tan_neg, Real.tan_pi_div_four]

/-- For a field of view strictly between 0 and 180 degrees and a non-empty frame the
focal length computed by `getPoint3D` is positive. -/
theorem focal_pos_of_fov_lt_180 (size : Nat) (fov : ℝ) (hsize : 0 < size) (h0 : 0 < fov)
    (h180 : fov < 180) : 0 < (size : ℝ) / (2 * Real.tan (fov * Real.pi / 360)) := by
  have hpi := Real.pi_pos
  have ht : 0 < Real.tan (fov * Real.pi / 360) := by
    apply Real.tan_pos_of_pos_of_lt_pi_div_two
    · positivity
    · have := mul_lt_mul_of_pos_right h180 hpi
      linarith
  have hs : (0 : ℝ) < (size : ℝ) := by exact_mod_cast hsize
  positivity

theorem getPoint3D_of_guards (g : Gateway ℝ) (u v : Int)
    (hu : 0 ≤ u ∧ u < (g.depth.width : Int)) (hv : 0 ≤ v ∧ v < (g.depth.height : Int))
    (hd : 0 < g.depth.pixel u v) (hfh : 0 < g.fov_h) (hfv : 0 < g.fov_v)
    (hFh : 0 < (g.depth.width : ℝ) / (2 * Real.tan (g.fov_h * Real.pi / 360)))
    (hFv : 0 < (g.depth.height : ℝ) / (2 * Real.tan (g.fov_v * Real.pi / 360))) :
    getPoint3D Real.tan Real.pi g u v
      = ![g.depth.pixel u v * ((u : ℝ) - 0.5 * ((g.depth.width : ℝ) - 1))
            / ((g.depth.width : ℝ) / (2 * Real.tan (g.fov_h * Real.pi / 360))),
          g.depth.pixel u v * ((v : ℝ) - 0.5 * ((g.depth.height : ℝ) - 1))
            / ((g.depth.height : ℝ) / (2 * Real.tan (g.fov_v * Real.pi / 360))),
          g.depth.pixel u v] := by
  unfold getPoint3D getPoint3DTraced
  rw [if_pos ⟨hu.1, hu.2, hv.1, hv.2, hfh, hfv⟩]
  simp only [half_angle_eq]
  rw [if_pos ⟨hd, hFh, hFv⟩]
  simp only [Int.cast_sub, Int.cast_natCast, Int.cast_one, mul_div_assoc]

/-- C5 (amended): over the reals, for a pixel `(u,v)` inside the depth frame whose
depth sample `d` is positive, with `fov_h > 0`, `fov_v > 0` and positive focal lengths
`f_h = W / (2*tan(fov_h*pi/360))`, `f_v = H / (2*tan(fov_v*pi/360))`, `getPoint3D(u,v)`
is `(d*x/f_h, d*y/f_v, d)` with `x = u - 0.5*(W-1)`, `y = v - 0.5*(H-1)`. The
image-centre pixel gives `(0,0,d)`; with `fov_h = 90` the focal length is `W/2` and
pixel `(W-1, v)` has first component `d*(W-1)/W`. -/
theorem getPoint3D_pinhole (g : Gateway ℝ) (u v : Int)
    (hu : 0 ≤ u ∧ u < (g.depth.width : Int)) (hv : 0 ≤ v ∧ v < (g.depth.height : Int))
    (hd : 0 < g.depth.pixel u v) (hfh : 0 < g.fov_h) (hfv : 0 < g.fov_v)
    (hFh : 0 < (g.depth.width : ℝ) / (2 * Real.tan (g.fov_h * Real.pi / 360)))
    (hFv : 0 < (g.depth.height : ℝ) / (2 * Real.tan (g.fov_v * Real.pi / 360))) :
    getPoint3D Real.tan Real.pi g u v
      = ![g.depth.pixel u v * ((u : ℝ) - 0.5 * ((g.depth.width : ℝ) - 1))
            / ((g.depth.width : ℝ) / (2 * Real.tan (g.fov_h * Real.pi / 360))),
          g.depth.pixel u v * ((v : ℝ) - 0.5 * ((g.depth.height : ℝ) - 1))
            / ((g.depth.height : ℝ) / (2 * Real.tan (g.fov_v * Real.pi / 360))),
          g.depth.pixel u v]
    ∧ ((u : ℝ) = 0.5 * ((g.depth.width : ℝ) - 1) → (v : ℝ) = 0.5 * ((g.depth.height : ℝ) - 1) →
        getPoint3D Real.tan Real.pi g u v = ![0, 0, g.depth.pixel u v])
    ∧ (g.fov_h = 90 →
        (g.depth.width : ℝ) / (2 * Real.tan (g.fov_h * Real.pi / 360)) = (g.depth.width : ℝ) / 2
        ∧ (u = (g.depth.width : Int) - 1 →
            getPoint3D Real.tan Real.pi g u v 0
              = g.depth.pixel u v * ((g.depth.width : ℝ) - 1) / (g.depth.width : ℝ))) := by
  have hmain := getPoint3D_of_guards g u v hu hv hd hfh hfv hFh hFv
  refine ⟨hmain, ?_, ?_⟩
  · intro hcu hcv
    rw [hmain, hcu, hcv]
    simp
  · intro h90
    have hfocal : (g.depth.width : ℝ) / (2 * Real.tan (g.fov_h * Real.pi / 360))
        = (g.depth.width : ℝ) / 2 := by
      rw [h90, tan_half_right_angle, mul_one]
    refine ⟨hfocal, ?_⟩
    intro hlast
    have hW : (0 : ℝ) < (g.depth.width : ℝ) := by
      have : (0 : Int) < (g.depth.width : Int) := by omega
      exact_mod_cast this
    have hucast : (u : ℝ) = (g.depth.width : ℝ) - 1 := by
      rw [hlast]; push_cast; ring
    rw [hmain, hfocal, hucast]
    simp only [Matrix.cons_val_zero]
    field_simp
    ring

theorem getPoint3D_pinhole_witness :
    getPoint3D Real.tan Real.pi (unitGateway 90 90) 0 0
      = ![(unitGateway (90 : ℝ) 90).depth.pixel 0 0
            * (((0 : Int) : ℝ) - 0.5 * (((unitGateway (90 : ℝ) 90).depth.width : ℝ) - 1))
            / (((unitGateway (90 : ℝ) 90).depth.width : ℝ)
                / (2 * Real.tan ((unitGateway (90 : ℝ) 90).fov_h * Real.pi / 360))),
          (unitGateway (90 : ℝ) 90).depth.pixel 0 0
            * (((0 : Int) : ℝ) - 0.5 * (((unitGateway (90 : ℝ) 90).depth.height : ℝ) - 1))
            / (((unitGateway (90 : ℝ) 90).depth.height : ℝ)
                / (2 * Real.tan ((unitGateway (90 : ℝ) 90).fov_v * Real.pi / 360))),
          (unitGateway (90 : ℝ) 90).depth.pixel 0 0] :=
  (getPoint3D_pinhole (unitGateway 90 90) 0 0
    (by simp [unitGateway]) (by simp [unitGateway])
    (by simp [unitGateway]) (by simp [unitGateway]) (by simp [unitGateway])
    (focal_pos_of_fov_lt_180 1 90 (by norm_num) (by norm_num) (by norm_num))
    (focal_pos_of_fov_lt_180 1 90 (by norm_num) (by norm_num) (by norm_num))).1

/-- C5 fails for a field of view of 270 degrees: the pixel is inside the frame, its
depth sample is `1 > 0` and both fields of view are positive, yet the focal length is
negative and `getPoint3D` returns the zero point, whose third component is not the
depth. -/
theorem getPoint3D_wide_fov_is_zero :
    ((0 : Int) ≤ 0 ∧ (0 : Int) < ((unitGateway (270 : ℝ) 90).depth.width : Int))
    ∧ ((0 : Int) ≤ 0 ∧ (0 : Int) < ((unitGateway (270 : ℝ) 90).depth.height : Int))
    ∧ 0 < (unitGateway (270 : ℝ) 90).depth.pixel 0 0
    ∧ 0 < (unitGateway (270 : ℝ) 90).fov_h ∧ 0 < (unitGateway (270 : ℝ) 90).fov_v
    ∧ getPoint3D Real.tan Real.pi (unitGateway 270 90) 0 0 = ![0, 0, 0]
    ∧ getPoint3D Real.tan Real.pi (unitGateway 270 90) 0 0 2
        ≠ (unitGateway (270 : ℝ) 90).depth.pixel 0 0 := by
  have hzero : getPoint3D Real.tan Real.pi (unitGateway 270 90) 0 0 = ![0, 0, 0] := by
    unfold getPoint3D getPoint3DTraced
    simp only [half_angle_eq]
    simp only [unitGateway, tan_half_three_right_angles]
    norm_num
  refine ⟨by simp [unitGateway], by simp [unitGateway], by simp [unitGateway],
    by simp [unitGateway], by simp [unitGateway], hzero, ?_⟩
  rw [hzero]
  simp [unitGateway]

/-! ## Degenerate pixels in replies -/

theorem pixelReply_of_degenerate (tan : K → K) (pi : K) (g : Gateway K) (u v : Int)
    (hdeg : degeneratePixel g u v) : pixelReply tan pi g u v = cameraOrigin g := by
  unfold pixelReply cameraOrigin
  rw [getPoint3D_of_degenerate tan pi g u v hdeg]
  simp [mulVec, push_back]

theorem specPoint_of_degenerate (tan : K → K) (pi : K) (g : Gateway K) (u v : Int)
    (hdeg : degeneratePixel g u v) : specPoint tan pi g u v = cameraOrigin g := by
  rw [← pixelReply_eq_specPoint, pixelReply_of_degenerate tan pi g u v hdeg]

theorem specPoint_eq_ite (tan : K → K) (pi : K) (g : Gateway K) (u v : Int) :
    specPoint tan pi g u v
      = if degeneratePixel g u v then cameraOrigin g else specPoint tan pi g u v := by
  by_cases hdeg : degeneratePixel g u v
  · rw [if_pos hdeg, specPoint_of_degenerate tan pi g u v hdeg]
  · rw [if_neg hdeg]

/-- C6 (amended): in the reply to a `Points` request, and to a `Rect` request with
`step ≥ 1` whose 32-bit additions do not overflow (`rectFits`), every requested pixel
that is degenerate (outside the depth frame, with a non-positive depth sample, or asked
for while `fov_h ≤ 0` or `fov_v ≤ 0`) contributes the three doubles
`Hcam(0,3), Hcam(1,3), Hcam(2,3)`, the first three components of `Hcam * (0,0,0,1)`,
and `respond` returns `true`. These are `(0,0,0)` when the translation entries of
`Hcam` are zero, as they are for the identity pose set by `configure`. -/
theorem degenerate_pixel_contributes_camera_origin (tan : K → K) (pi : K) (g : Gateway K) :
    (∀ u v : Int, degeneratePixel g u v →
        pixelReply tan pi g u v = cameraOrigin g ∧ specPoint tan pi g u v = cameraOrigin g)
    ∧ (∀ cs : List Int, 2 ≤ cs.length → ∀ fuel : Nat,
        respond tan pi g fuel (pointsCommand cs)
          = some (true, (List.range (cs.length / 2)).flatMap fun k =>
              if degeneratePixel g (cs.getD (2 * k) 0) (cs.getD (2 * k + 1) 0)
              then cameraOrigin g
              else specPoint tan pi g (cs.getD (2 * k) 0) (cs.getD (2 * k + 1) 0)))
    ∧ (∀ (tlx tly w h : Int) (ostep : Option Int), 1 ≤ ostep.getD 1 →
        rectFits tlx tly w h (ostep.getD 1) → ∀ fuel : Nat,
        rectCount w (ostep.getD 1) + rectCount h (ostep.getD 1) < fuel →
        respond tan pi g fuel (rectCommand tlx tly w h ostep)
          = some (true, (List.range (rectCount w (ostep.getD 1))).flatMap fun i =>
              (List.range (rectCount h (ostep.getD 1))).flatMap fun j =>
                if degeneratePixel g (tlx + (i : Int) * ostep.getD 1)
                    (tly + (j : Int) * ostep.getD 1)
                then cameraOrigin g
                else specPoint tan pi g (tlx + (i : Int) * ostep.getD 1)
                    (tly + (j : Int) * ostep.getD 1)))
    ∧ (g.Hcam 0 3 = 0 → g.Hcam 1 3 = 0 → g.Hcam 2 3 = 0 →
        cameraOrigin g = [Value.dbl 0, Value.dbl 0, Value.dbl 0])
    ∧ cameraOrigin (configure (ResourceFinder.mk none : ResourceFinder K))
        = [Value.dbl 0, Value.dbl 0, Value.dbl 0] := by
  refine ⟨fun u v hdeg => ⟨pixelReply_of_degenerate tan pi g u v hdeg,
    specPoint_of_degenerate tan pi g u v hdeg⟩, ?_, ?_, ?_, ?_⟩
  · intro cs hn fuel
    rw [respond_pointsCommand tan pi g fuel cs hn]
    unfold pointsSpec
    simp only [← specPoint_eq_ite]
  · intro tlx tly w h ostep hstep hfits fuel hfuel
    rw [respond_rectCommand, rectOuter_spec tan pi g tlx tly w h _ hstep hfits fuel hfuel]
    unfold rectSpec
    simp only [← specPoint_eq_ite, Option.map_some']
  · intro h0 h1 h2
    simp [cameraOrigin, h0, h1, h2]
  · simp [cameraOrigin, configure, eye4]

/-- C6 fails when the camera pose has a translation: pixel `(1,2)` is outside the 4x2
example frame, and `Points 1 2` is answered with the camera position `(5,0,0)`, not with
`(0,0,0)`. -/
theorem degenerate_pixel_reply_not_zero :
    degeneratePixel exampleGateway 1 2
    ∧ respond exampleTan examplePi exampleGateway 0 (pointsCommand [1, 2])
        = some (true, [Value.dbl 5, Value.dbl 0, Value.dbl 0])
    ∧ respond exampleTan examplePi exampleGateway 0 (pointsCommand [1, 2])
        ≠ some (true, [Value.dbl 0, Value.dbl 0, Value.dbl 0]) := by
  have hdeg : degeneratePixel exampleGateway 1 2 :=
    Or.inl (by simp [exampleGateway, exampleDepth])
  have hreply : respond exampleTan examplePi exampleGateway 0 (pointsCommand [1, 2])
      = some (true, [Value.dbl 5, Value.dbl 0, Value.dbl 0]) := by
    rw [respond_pointsCommand exampleTan examplePi exampleGateway 0 [1, 2] (by decide)]
    simp only [pointsSpec, List.length_cons, List.length_nil]
    simp only [List.range_succ, List.range_zero, List.nil_append, List.flatMap_cons,
      List.flatMap_nil, List.append_nil]
    rw [show ([1, 2] : List Int).getD (2 * 0) 0 = 1 from rfl,
      show ([1, 2] : List Int).getD (2 * 0 + 1) 0 = 2 from rfl,
      specPoint_of_degenerate exampleTan examplePi exampleGateway 1 2 hdeg]
    simp [cameraOrigin, exampleGateway, Matrix4.set, eye4]
  exact ⟨hdeg, hreply, by rw [hreply]; simp⟩

/-! ## Intrinsics resolution -/

theorem getCameraOptions_of_queryFails (g : Gateway K) (cam : CamPort K)
    (hfail : queryFails cam) : getCameraOptions g cam = (false, g) := by
  cases cam with
  | disconnected => rfl
  | writeFails => rfl
  | replies rep =>
    have h : ¬ rep.size ≥ 5 := Nat.not_le.mpr hfail
    simp only [getCameraOptions, if_neg h]

theorem updateModule_intrinsics (axis2dcm : (Fin 4 → K) → Matrix4 K) (g : Gateway K)
    (cam : CamPort K) (depthRead : Option (ImageOf K)) (gazeRead : Option (Property K)) :
    let g1 : Gateway K :=
      if !g.camera_configured then
        { (getCameraOptions g cam).2 with camera_configured := (getCameraOptions g cam).1 }
      else g
    (updateModule axis2dcm g cam depthRead gazeRead).2.1.camera_configured
        = g1.camera_configured
    ∧ (updateModule axis2dcm g cam depthRead gazeRead).2.1.fov_h = g1.fov_h
    ∧ (updateModule axis2dcm g cam depthRead gazeRead).2.1.fov_v = g1.fov_v := by
  unfold updateModule
  cases depthRead with
  | none =>
    cases gazeRead with
    | none => simp
    | some ptr =>
      cases hp : ptr "depth" with
      | none => simp [hp]
      | some pose =>
        by_cases h7 : pose.size ≥ 7
        · simp [hp, h7]
        · simp [hp, h7]
  | some img =>
    cases gazeRead with
    | none => simp
    | some ptr =>
      cases hp : ptr "depth" with
      | none => simp [hp]
      | some pose =>
        by_cases h7 : pose.size ≥ 7
        · simp [hp, h7]
        · simp [hp, h7]

theorem transition_keeps_resolved (axis2dcm : (Fin 4 → K) → Matrix4 K) (g : Gateway K)
    (ev : Event K) (hres : g.camera_configured = true) :
    (transition axis2dcm g ev).camera_configured = true
    ∧ (transition axis2dcm g ev).fov_h = g.fov_h
    ∧ (transition axis2dcm g ev).fov_v = g.fov_v := by
  cases ev with
  | rpc fuel command => exact ⟨hres, rfl, rfl⟩
  | tick cam depthRead gazeRead =>
    have h := updateModule_intrinsics axis2dcm g cam depthRead gazeRead
    simp only [hres, Bool.not_true, Bool.false_eq_true, if_false] at h
    exact ⟨h.1, h.2.1, h.2.2⟩

theorem run_keeps_resolved (axis2dcm : (Fin 4 → K) → Matrix4 K) (evs : List (Event K)) :
    ∀ g : Gateway K, g.camera_configured = true →
      (run axis2dcm g evs).camera_configured = true
      ∧ (run axis2dcm g evs).fov_h = g.fov_h
      ∧ (run axis2dcm g evs).fov_v = g.fov_v := by
  induction evs with
  | nil => intro g hres; exact ⟨hres, rfl, rfl⟩
  | cons ev evs ih =>
    intro g hres
    have hstep := transition_keeps_resolved axis2dcm g ev hres
    have hrest := ih (transition axis2dcm g ev) hstep.1
    exact ⟨hrest.1, hrest.2.1.trans hstep.2.1, hrest.2.2.trans hstep.2.2⟩

theorem run_append (axis2dcm : (Fin 4 → K) → Matrix4 K) (g : Gateway K)
    (evs1 evs2 : List (Event K)) :
    run axis2dcm g (evs1 ++ evs2) = run axis2dcm (run axis2dcm g evs1) evs2 := by
  unfold run
  rw [List.foldl_append]

/-- C8: intrinsics resolution is monotonic. Along every sequence of `updateModule` ticks
and `respond` calls after `configure`, whatever the camera driver replies: once
`camera_configured` is true (after the events `evs1`) it is still true after any further
events `evs2`, and `fov_h`, `fov_v` keep the values they had then. A failed driver query
(no connection, write failure, or a reply with fewer than 5 fields) returns `false` and
leaves the gateway, hence `fov_h` and `fov_v`, unchanged, also when it is made by an
`updateModule` tick. -/
theorem intrinsics_resolution_monotonic (axis2dcm : (Fin 4 → K) → Matrix4 K)
    (rf : ResourceFinder K) (evs1 evs2 : List (Event K))
    (hres : (run axis2dcm (configure rf) evs1).camera_configured = true) :
    ((run axis2dcm (configure rf) (evs1 ++ evs2)).camera_configured = true
      ∧ (run axis2dcm (configure rf) (evs1 ++ evs2)).fov_h
          = (run axis2dcm (configure rf) evs1).fov_h
      ∧ (run axis2dcm (configure rf) (evs1 ++ evs2)).fov_v
          = (run axis2dcm (configure rf) evs1).fov_v)
    ∧ (∀ (g : Gateway K) (cam : CamPort K), queryFails cam →
        getCameraOptions g cam = (false, g))
    ∧ (∀ (g : Gateway K) (cam : CamPort K) (depthRead : Option (ImageOf K))
        (gazeRead : Option (Property K)), g.camera_configured = false → queryFails cam →
        (updateModule axis2dcm g cam depthRead gazeRead).2.1.camera_configured = false
        ∧ (updateModule axis2dcm g cam depthRead gazeRead).2.1.fov_h = g.fov_h
        ∧ (updateModule axis2dcm g cam depthRead gazeRead).2.1.fov_v = g.fov_v) := by
  refine ⟨?_, getCameraOptions_of_queryFails, ?_⟩
  · rw [run_append]
    exact run_keeps_resolved axis2dcm evs2 _ hres
  · intro g cam depthRead gazeRead hunres hfail
    have h := updateModule_intrinsics axis2dcm g cam depthRead gazeRead
    simp only [hunres, Bool.not_false, if_true,
      getCameraOptions_of_queryFails g cam hfail] at h
    exact h

theorem intrinsics_resolution_monotonic_witness :
    (run exampleAxis2dcm (configure (ResourceFinder.mk none))
        ([Event.tick (CamPort.replies exampleFovReply) none none]
          ++ [Event.tick (CamPort.replies
                [Value.null, Value.null, Value.null, Value.dbl 10, Value.dbl 20])
              (some exampleDepth) (some examplePose),
              Event.rpc 0 [Value.str "help"]])).fov_h
      = (run exampleAxis2dcm (configure (ResourceFinder.mk none))
          [Event.tick (CamPort.replies exampleFovReply) none none]).fov_h :=
  (intrinsics_resolution_monotonic exampleAxis2dcm (ResourceFinder.mk none)
    [Event.tick (CamPort.replies exampleFovReply) none none]
    [Event.tick (CamPort.replies
        [Value.null, Value.null, Value.null, Value.dbl 10, Value.dbl 20])
      (some exampleDepth) (some examplePose),
     Event.rpc 0 [Value.str "help"]]
    (by simp [run, transition, updateModule, configure, getCameraOptions, exampleFovReply,
      Bottle.size])).1.2.1

/-! ## Lock discipline of the ingestion tick -/

theorem updateModule_accesses (axis2dcm : (Fin 4 → K) → Matrix4 K) (g : Gateway K)
    (cam : CamPort K) (img : ImageOf K) (ptr : Property K) (pose : Bottle K)
    (hpose : ptr "depth" = some pose) (h7 : pose.size ≥ 7) :
    (updateModule axis2dcm g cam (some img) (some ptr)).2.2
      = [SharedAccess.lock, SharedAccess.writeDepth, SharedAccess.unlock,
         SharedAccess.writeHcam, SharedAccess.writeHcam, SharedAccess.writeHcam,
         SharedAccess.writeHcam] := by
  simp [updateModule, hpose, h7]

/-- C9, evaluated on the code: in a tick that receives a depth frame and a pose message
with 7 values, the depth frame is written between `lock` and `unlock`, but the four
writes to `Hcam` come after the `unlock`, so not every write happens under the lock.
The pose written differs from the one before, so a scan that has the lock can meet two
poses: the same pixel `(1,2)` is answered `(5,0,0)` before the write and `(1,2,3)`
after it. -/
theorem updateModule_writes_pose_without_lock :
    (updateModule exampleAxis2dcm exampleGateway CamPort.disconnected
        (some exampleDepth) (some examplePose)).2.2
      = [SharedAccess.lock, SharedAccess.writeDepth, SharedAccess.unlock,
         SharedAccess.writeHcam, SharedAccess.writeHcam, SharedAccess.writeHcam,
         SharedAccess.writeHcam]
    ∧ writesUnderLock false
        (updateModule exampleAxis2dcm exampleGateway CamPort.disconnected
          (some exampleDepth) (some examplePose)).2.2 = false
    ∧ writesUnderLock false
        [SharedAccess.lock, SharedAccess.writeDepth, SharedAccess.unlock] = true
    ∧ pixelReply exampleTan examplePi exampleGateway 1 2
        = [Value.dbl 5, Value.dbl 0, Value.dbl 0]
    ∧ pixelReply exampleTan examplePi
        (updateModule exampleAxis2dcm exampleGateway CamPort.disconnected
          (some exampleDepth) (some examplePose)).2.1 1 2
        = [Value.dbl 1, Value.dbl 2, Value.dbl 3] := by
  have htrace := updateModule_accesses exampleAxis2dcm exampleGateway CamPort.disconnected
    exampleDepth examplePose _ (rfl : examplePose "depth" = some _) (by decide)
  refine ⟨htrace, ?_, by decide, ?_, ?_⟩
  · rw [htrace]; decide
  · rw [pixelReply_of_degenerate exampleTan examplePi exampleGateway 1 2
      (Or.inl (by simp [exampleGateway, exampleDepth]))]
    simp [cameraOrigin, exampleGateway, Matrix4.set, eye4]
  · rw [pixelReply_of_degenerate exampleTan examplePi _ 1 2
      (Or.inl (by simp [updateModule, exampleGateway, exampleDepth, examplePose, Bottle.size]))]
    simp [cameraOrigin, updateModule, exampleGateway, examplePose, exampleAxis2dcm,
      Matrix4.set, eye4, Bottle.size, Bottle.get, Value.asDouble]

/-! ## Termination of the `Rect` scan -/

theorem rectInner_empty_row (tan : K → K) (pi : K) (g : Gateway K) (u step : Int)
    (fuel : Nat) (reply : Bottle K) :
    rectInner tan pi g u 0 0 step (fuel + 1) 0 reply = some reply := by
  rw [rectInner, if_neg (by decide)]

/-- Counting down from `u ≤ 0` with step `-1` against the bound `1`: the loop variable
reaches `INT_MIN`, wraps to `INT_MAX` and the loop ends. -/
theorem rectOuter_countdown (tan : K → K) (pi : K) (g : Gateway K) :
    ∀ (n : Nat) (u : Int) (reply : Bottle K), u = INT_MIN + (n : Int) → u ≤ 0 →
      rectOuter tan pi g 0 0 1 0 (-1) (n + 3) u reply = some reply := by
  have hbound : wrapInt (0 + 1) = 1 := by decide
  intro n
  induction n with
  | zero =>
    intro u reply hu _
    have hu0 : u = -2147483648 := by simpa [INT_MIN] using hu
    subst hu0
    rw [rectOuter, hbound, if_pos (by decide), rectInner_empty_row]
    simp only
    rw [rectOuter, hbound, if_neg (by decide)]
  | succ n ih =>
    intro u reply hu hle
    have hwrap : wrapInt (u + -1) = u - 1 := by
      unfold INT_MIN at hu
      unfold wrapInt
      omega
    rw [show n + 1 + 3 = (n + 3) + 1 from rfl, rectOuter, hbound, if_pos (by omega),
      rectInner_empty_row]
    simp only
    rw [hwrap]
    exact ih (u - 1) reply (by rw [hu]; push_cast; ring) (by omega)

/-- Stepping by 2 from an even start against the odd bound `INT_MAX`: the loop variable
skips the bound, wraps and stays below it for ever. -/
theorem rectOuter_skips_bound (tan : K → K) (pi : K) (g : Gateway K) :
    ∀ (fuel : Nat) (u : Int) (reply : Bottle K), isInt u → u % 2 = 0 →
      rectOuter tan pi g 2147483646 0 1 1 2 fuel u reply = none := by
  have hbound : wrapInt (2147483646 + 1) = 2147483647 := by decide
  intro fuel
  induction fuel with
  | zero => intro u reply _ _; rfl
  | succ f ih =>
    intro u reply hu heven
    have hlt : u < 2147483647 := by
      unfold isInt INT_MIN INT_MAX at hu
      omega
    rw [rectOuter, hbound, if_pos hlt]
    cases rectInner tan pi g u 0 1 2 f 0 reply with
    | none => rfl
    | some r1 =>
      simp only
      exact ih (wrapInt (u + 2)) r1 (isInt_wrapInt _) (by unfold wrapInt; omega)

/-- C10 (amended): with the 32-bit `int` arithmetic of the code, the `Rect` scan
terminates, releasing the lock, when `step ≥ 1` and no addition overflows, and when the
outer loop is not entered (`w ≤ 0` with `tlx + w` representable); the reply is then the
one of the specification. When `step = 0` and the outer loop is entered (`tlx` below the
wrapped `tlx + w`, as for `w > 0` without overflow) no amount of fuel lets `respond`
return: the request is never answered and the lock, once taken, is never released;
`Rect 0 0 1 1 0` is such a request. -/
theorem rect_scan_termination (tan : K → K) (pi : K) (g : Gateway K)
    (tlx tly w h step : Int) :
    (1 ≤ step → rectFits tlx tly w h step → ∀ fuel : Nat,
        rectCount w step + rectCount h step < fuel →
        respondTraced tan pi g fuel (rectCommand tlx tly w h (some step))
          = (some (true, rectSpec tan pi g tlx tly w h step),
              [SharedAccess.lock, SharedAccess.unlock]))
    ∧ (w ≤ 0 → isInt (tlx + w) → ∀ fuel : Nat, 0 < fuel →
        respondTraced tan pi g fuel (rectCommand tlx tly w h (some step))
          = (some (true, []), [SharedAccess.lock, SharedAccess.unlock]))
    ∧ (step = 0 → isInt tlx → tlx < wrapInt (tlx + w) → ∀ fuel : Nat,
        respondTraced tan pi g fuel (rectCommand tlx tly w h (some step))
          = (none, [SharedAccess.lock]))
    ∧ (step = 0 → isInt tlx → isInt (tlx + w) → 0 < w → ∀ fuel : Nat,
        respond tan pi g fuel (rectCommand tlx tly w h (some step)) = none)
    ∧ (∀ fuel : Nat,
        respondTraced tan pi g fuel (rectCommand 0 0 1 1 (some 0))
          = (none, [SharedAccess.lock])) := by
  have hdiv : ∀ (a b c d : Int), isInt a → a < wrapInt (a + c) → ∀ fuel : Nat,
      respondTraced tan pi g fuel (rectCommand a b c d (some 0))
        = (none, [SharedAccess.lock]) := by
    intro a b c d ha hlt fuel
    rw [respondTraced_rectCommand, Option.getD_some,
      rectOuter_diverges tan pi g a b c d fuel a [] ha hlt]
  refine ⟨?_, ?_, ?_, ?_, ?_⟩
  · intro hstep hfits fuel hfuel
    rw [respondTraced_rectCommand, Option.getD_some,
      rectOuter_spec tan pi g tlx tly w h step hstep hfits fuel hfuel]
  · intro hw hbound fuel hfuel
    obtain ⟨f, rfl⟩ : ∃ f, fuel = f + 1 := ⟨fuel - 1, by omega⟩
    rw [respondTraced_rectCommand, Option.getD_some,
      rectOuter_not_entered tan pi g tlx tly w h step f tlx []
        (by rw [wrapInt_of_isInt _ hbound]; omega)]
  · intro hstep htlx hlt fuel
    rw [hstep]
    exact hdiv tlx tly w h htlx hlt fuel
  · intro hstep htlx hbound hw fuel
    unfold respond
    rw [hstep, hdiv tlx tly w h htlx (by rw [wrapInt_of_isInt _ hbound]; omega) fuel]
  · intro fuel
    exact hdiv 0 0 1 1 (by unfold isInt INT_MIN INT_MAX; decide) (by decide) fuel

/-- C10 fails on the code in both directions. With `step = -1 ≤ 0` and `w = 1 > 0`,
`Rect 0 0 1 0 -1` is answered: the loop variable counts down to `INT_MIN`, wraps to
`INT_MAX` and the scan returns an empty reply and releases the lock. With
`step = 2 ≥ 1`, `Rect 2147483646 0 1 1 2` is never answered: the loop variable steps
over the bound `INT_MAX` and wraps. -/
theorem rect_scan_wraps_around :
    ((-1 : Int) ≤ 0 ∧ (0 : Int) < 1)
    ∧ (∃ fuel : Nat,
        respondTraced exampleTan examplePi exampleGateway fuel
            (rectCommand 0 0 1 0 (some (-1)))
          = (some (true, []), [SharedAccess.lock, SharedAccess.unlock]))
    ∧ (1 : Int) ≤ 2
    ∧ (∀ fuel : Nat,
        respond exampleTan examplePi exampleGateway fuel
          (rectCommand 2147483646 0 1 1 (some 2)) = none) := by
  refine ⟨by decide, ⟨2147483648 + 3, ?_⟩, by decide, ?_⟩
  · rw [respondTraced_rectCommand, Option.getD_some,
      rectOuter_countdown exampleTan examplePi exampleGateway 2147483648 0 []
        (by decide) (le_refl 0)]
  · intro fuel
    rw [respond_rectCommand, Option.getD_some,
      rectOuter_skips_bound exampleTan examplePi exampleGateway fuel 2147483646 []
        (by unfold isInt INT_MIN INT_MAX; decide) (by decide)]
    rfl

end Embedding

end Vision3dGateway
